import Mathlib

/-!
Verification of the gait-cycle template-matching pipeline
(`Gait_Cycle_Template_Matching.py`, class `Template_Matching`).

The Python code is shallowly embedded over `ℚ` (numpy float64 arrays are
idealized as exact rationals, integer indices as `ℕ`/`ℤ`).  External numeric
routines keep their call structure:

* `scipy.interpolate.interp1d(x, y, kind='cubic')` is an external numerical
  spline; it is modelled by an uninterpreted interpolant parameter
  `interp : List ℚ → List ℚ → ℚ → ℚ` (given the knot vectors `x`, `y` it
  yields a function `ℚ → ℚ`).  All theorems below either hold for every
  interpolant or instantiate it explicitly.
* `np.linalg.pinv` on the full-column-rank Savitzky–Golay design matrix is
  realized exactly as `(BᵀB)⁻¹Bᵀ` with an executable adjugate-based inverse
  over `ℚ`.

Sequential numpy/python semantics that the claims depend on (clipping slice
semantics, `np.vstack` shape rules, fancy-index assignment, `np.where`,
`np.searchsorted` side='left', python banker's `round`, dictionary key-set
comparison, per-iteration `try/except`) are embedded explicitly below, each
next to the function that uses it.
-/

/-- `np.arange n` as rationals: the implicit sample positions `0, 1, …, n-1`. -/
def arangeQ (n : ℕ) : List ℚ := (List.range n).map (fun i : ℕ => (i : ℚ))

/-- `ndarray.min()` for a nonempty array (defaulting to 0 on the empty array,
where numpy would raise). -/
def listMinQ (l : List ℚ) : ℚ :=
  match l with
  | [] => 0
  | a :: t => t.foldl min a

/-- `ndarray.max()` for a nonempty array (defaulting to 0 on the empty array,
where numpy would raise). -/
def listMaxQ (l : List ℚ) : ℚ :=
  match l with
  | [] => 0
  | a :: t => t.foldl max a

/-- `np.linspace a b m`: `m` evenly spaced samples from `a` to `b` inclusive. -/
def linspace (a b : ℚ) (m : ℕ) : List ℚ :=
  if m ≤ 1 then List.replicate m a
  else (List.range m).map (fun i : ℕ => a + (b - a) * (i : ℚ) / ((m : ℚ) - 1))

/-- `np.searchsorted(xs, v)` with the default side='left' on a sorted array:
the number of entries strictly below `v`, i.e. the leftmost insertion point. -/
def searchsorted (xs : List ℚ) (v : ℚ) : ℕ := xs.countP (fun w => decide (w < v))

/-- The boolean inflection mask: `mask = np.zeros(n, bool); mask[inds] = True`.
Position `j` ends up `True` exactly when `j` occurs in `inds` (any order, any
multiplicity).  Indices are taken in-bounds (`numpy` raises otherwise). -/
def inflectionMask (n : ℕ) (inds : List ℕ) : List Bool :=
  (List.range n).map (fun j => inds.contains j)

/-- Boolean-mask selection `xs[mask]`. -/
def maskSelect (xs : List ℚ) (mask : List Bool) : List ℚ :=
  (xs.zip mask).filterMap (fun p => if p.2 then some p.1 else none)

/-- Vectorized fancy-index assignment `ys[idxs] = vals` (with numpy's
left-to-right, last-write-wins semantics for repeated indices). -/
def setIndices (ys : List ℚ) (idxs : List ℕ) (vals : List ℚ) : List ℚ :=
  (idxs.zip vals).foldl (fun acc p => acc.set p.1 p.2) ys

/-- `Template_Matching.upsample_with_inflections(x, y, inflectionIndices,
upsampleFactor)`: build the mask, upsample via `linspace` + interpolation,
re-map the labels with `searchsorted`, then force the original `y` values at
the re-mapped positions.  Returns `(xNew, yNew, newInflectionIndices)`. -/
def upsample_with_inflections (interp : List ℚ → List ℚ → ℚ → ℚ)
    (x y : List ℚ) (inflectionIndices : List ℕ) (upsampleFactor : ℕ) :
    List ℚ × List ℚ × List ℕ :=
  let mask := inflectionMask x.length inflectionIndices
  let xNew := linspace (listMinQ x) (listMaxQ x) (x.length * upsampleFactor)
  let f := interp x y
  let yNew := xNew.map f
  let newInflectionIndices := (maskSelect x mask).map (searchsorted xNew)
  let yNewSet := setIndices yNew newInflectionIndices (maskSelect y mask)
  (xNew, yNewSet, newInflectionIndices)

/-- The distinct label indices in increasing order: the positions at which the
inflection mask is `True`. -/
def labelPositions (n : ℕ) (labels : List ℕ) : List ℕ :=
  (List.range n).filter (fun j => labels.contains j)

/-! ### Basic lemmas about the resampler's ingredients -/

theorem foldl_min_of_le (t : List ℚ) (a : ℚ) (h : ∀ b ∈ t, a ≤ b) :
    t.foldl min a = a := by
  induction t generalizing a with
  | nil => rfl
  | cons b t ih =>
    simp only [List.foldl_cons]
    rw [min_eq_left (h b (by simp))]
    exact ih a (fun c hc => h c (by simp [hc]))

theorem listMinQ_cons (a : ℚ) (t : List ℚ) : listMinQ (a :: t) = t.foldl min a := rfl

theorem listMaxQ_cons (a : ℚ) (t : List ℚ) : listMaxQ (a :: t) = t.foldl max a := rfl

theorem arangeQ_succ (n : ℕ) : arangeQ (n + 1) = arangeQ n ++ [(n : ℚ)] := by
  unfold arangeQ
  rw [List.range_succ]
  simp

theorem listMinQ_arangeQ (n : ℕ) : listMinQ (arangeQ n) = 0 := by
  cases n with
  | zero => rfl
  | succ m =>
    have hd : arangeQ (m + 1)
        = (0 : ℚ) :: ((List.range m).map Nat.succ).map (fun i : ℕ => (i : ℚ)) := by
      unfold arangeQ
      rw [List.range_succ_eq_map]
      simp
    rw [hd, listMinQ_cons]
    apply foldl_min_of_le
    intro b hb
    simp only [List.mem_map] at hb
    obtain ⟨j, _, rfl⟩ := hb
    exact Nat.cast_nonneg _

theorem listMaxQ_append_single (l : List ℚ) (v : ℚ) (h : l ≠ []) :
    listMaxQ (l ++ [v]) = max (listMaxQ l) v := by
  cases l with
  | nil => exact absurd rfl h
  | cons a t =>
    rw [List.cons_append, listMaxQ_cons, listMaxQ_cons, List.foldl_append]
    rfl

theorem arangeQ_ne_nil (n : ℕ) (h : 1 ≤ n) : arangeQ n ≠ [] := by
  intro hc
  have hl := congrArg List.length hc
  simp only [arangeQ, List.length_map, List.length_range, List.length_nil] at hl
  omega

theorem listMaxQ_arangeQ (n : ℕ) (h : 1 ≤ n) :
    listMaxQ (arangeQ n) = (n : ℚ) - 1 := by
  induction n with
  | zero => omega
  | succ m ih =>
    cases Nat.eq_zero_or_pos m with
    | inl h0 =>
      subst h0
      rw [show arangeQ 1 = [(0 : ℚ)] by decide, listMaxQ_cons]
      norm_num
    | inr h1 =>
      rw [arangeQ_succ, listMaxQ_append_single _ _ (arangeQ_ne_nil m h1), ih h1,
        max_eq_right (by linarith)]
      push_cast
      ring

theorem arangeQ_length (n : ℕ) : (arangeQ n).length = n := by
  simp only [arangeQ, List.length_map, List.length_range]

theorem linspace_length (a b : ℚ) (m : ℕ) : (linspace a b m).length = m := by
  unfold linspace
  by_cases h : m ≤ 1
  · rw [if_pos h, List.length_replicate]
  · rw [if_neg h, List.length_map, List.length_range]

theorem linspace_getD (a b : ℚ) (m i : ℕ) (h2 : 2 ≤ m) (hi : i < m) :
    (linspace a b m).getD i 0 = a + (b - a) * i / ((m : ℚ) - 1) := by
  unfold linspace
  rw [if_neg (by omega), List.getD_eq_getElem _ _ (by simpa using hi)]
  simp only [List.getElem_map, List.getElem_range]

theorem countP_range_eq_min (m c : ℕ) (p : ℕ → Bool) (hp : ∀ i, p i = true ↔ i < c) :
    (List.range m).countP p = min m c := by
  induction m with
  | zero => simp
  | succ k ih =>
    rw [List.range_succ, List.countP_append, ih]
    by_cases hk : k < c
    · have hpk : p k = true := (hp k).mpr hk
      simp [List.countP_cons, hpk]
      omega
    · have hpk : p k = false := by
        cases hb : p k with
        | false => rfl
        | true => exact absurd ((hp k).mp hb) hk
      simp [List.countP_cons, hpk]
      omega

theorem searchsorted_linspace (n f : ℕ) (v : ℚ) (hn : 2 ≤ n) (hf : 1 ≤ f) :
    searchsorted (linspace 0 ((n : ℚ) - 1) (n * f)) v
      = min (n * f) ⌈v * (((n * f : ℕ) : ℚ) - 1) / ((n : ℚ) - 1)⌉₊ := by
  have hm : 2 ≤ n * f := le_trans hn (Nat.le_mul_of_pos_right n (by omega))
  have hM : (0 : ℚ) < ((n * f : ℕ) : ℚ) - 1 := by
    have : (2 : ℚ) ≤ ((n * f : ℕ) : ℚ) := by exact_mod_cast hm
    linarith
  have hN : (0 : ℚ) < (n : ℚ) - 1 := by
    have : (2 : ℚ) ≤ (n : ℚ) := by exact_mod_cast hn
    linarith
  unfold searchsorted linspace
  rw [if_neg (by omega), List.countP_map]
  apply countP_range_eq_min
  intro i
  simp only [Function.comp, decide_eq_true_eq]
  rw [Nat.lt_ceil]
  rw [show (0 : ℚ) + ((n : ℚ) - 1 - 0) * (i : ℚ) / (((n * f : ℕ) : ℚ) - 1)
        = ((n : ℚ) - 1) * (i : ℚ) / (((n * f : ℕ) : ℚ) - 1) by ring]
  rw [div_lt_iff₀ hM, lt_div_iff₀ hN, mul_comm ((n : ℚ) - 1) (i : ℚ)]

theorem ceil_grid_lt_of_lt (n f a b : ℕ) (hn : 2 ≤ n) (hf : 1 ≤ f) (hab : a < b) :
    ⌈(a : ℚ) * (((n * f : ℕ) : ℚ) - 1) / ((n : ℚ) - 1)⌉₊
      < ⌈(b : ℚ) * (((n * f : ℕ) : ℚ) - 1) / ((n : ℚ) - 1)⌉₊ := by
  have hN : (0 : ℚ) < (n : ℚ) - 1 := by
    have : (2 : ℚ) ≤ (n : ℚ) := by exact_mod_cast hn
    linarith
  have hMn : ((n : ℕ) : ℚ) ≤ ((n * f : ℕ) : ℚ) := by
    exact_mod_cast Nat.le_mul_of_pos_right n (by omega)
  have hstep : (1 : ℚ) ≤ (((n * f : ℕ) : ℚ) - 1) / ((n : ℚ) - 1) := by
    rw [le_div_iff₀ hN]
    linarith
  have hb1 : (a : ℚ) + 1 ≤ (b : ℚ) := by exact_mod_cast hab
  have hta : (0 : ℚ) ≤ (a : ℚ) * (((n * f : ℕ) : ℚ) - 1) / ((n : ℚ) - 1) := by
    apply div_nonneg
    · apply mul_nonneg (Nat.cast_nonneg a)
      linarith
    · linarith
  have hkey : (a : ℚ) * (((n * f : ℕ) : ℚ) - 1) / ((n : ℚ) - 1) + 1
      ≤ (b : ℚ) * (((n * f : ℕ) : ℚ) - 1) / ((n : ℚ) - 1) := by
    have hexp : (b : ℚ) * (((n * f : ℕ) : ℚ) - 1) / ((n : ℚ) - 1)
        - (a : ℚ) * (((n * f : ℕ) : ℚ) - 1) / ((n : ℚ) - 1)
        = ((b : ℚ) - (a : ℚ)) * ((((n * f : ℕ) : ℚ) - 1) / ((n : ℚ) - 1)) := by
      ring
    nlinarith [hstep, hb1, hexp]
  calc ⌈(a : ℚ) * (((n * f : ℕ) : ℚ) - 1) / ((n : ℚ) - 1)⌉₊
      < ⌈(a : ℚ) * (((n * f : ℕ) : ℚ) - 1) / ((n : ℚ) - 1) + 1⌉₊ := by
        rw [Nat.ceil_add_one hta]
        omega
    _ ≤ ⌈(b : ℚ) * (((n * f : ℕ) : ℚ) - 1) / ((n : ℚ) - 1)⌉₊ := Nat.ceil_mono hkey

theorem ceil_grid_lt_bound (n f j : ℕ) (hn : 2 ≤ n) (hf : 1 ≤ f) (hj : j < n) :
    ⌈(j : ℚ) * (((n * f : ℕ) : ℚ) - 1) / ((n : ℚ) - 1)⌉₊ < n * f := by
  have hN : (0 : ℚ) < (n : ℚ) - 1 := by
    have : (2 : ℚ) ≤ (n : ℚ) := by exact_mod_cast hn
    linarith
  have hm : 2 ≤ n * f := le_trans hn (Nat.le_mul_of_pos_right n (by omega))
  have hj1 : (j : ℚ) ≤ (n : ℚ) - 1 := by
    have : (j : ℚ) + 1 ≤ (n : ℚ) := by exact_mod_cast hj
    linarith
  have hM0 : (0 : ℚ) ≤ ((n * f : ℕ) : ℚ) - 1 := by
    have : (2 : ℚ) ≤ ((n * f : ℕ) : ℚ) := by exact_mod_cast hm
    linarith
  have hle : (j : ℚ) * (((n * f : ℕ) : ℚ) - 1) / ((n : ℚ) - 1)
      ≤ ((n * f : ℕ) : ℚ) - 1 := by
    rw [div_le_iff₀ hN]
    nlinarith
  have hcast : (((n * f : ℕ) : ℚ) - 1) = ((n * f - 1 : ℕ) : ℚ) := by
    have h1 : 1 ≤ n * f := by omega
    push_cast [h1]
    ring
  have hceil : ⌈(((n * f : ℕ) : ℚ) - 1)⌉₊ = n * f - 1 := by
    rw [hcast, Nat.ceil_natCast]
  have hfin := Nat.ceil_mono hle
  rw [hceil] at hfin
  omega

theorem filterMap_ite {α β : Type} (p : α → Bool) (g : α → β) (l : List α) :
    (l.filterMap (fun i => if p i then some (g i) else none)) = (l.filter p).map g := by
  induction l with
  | nil => rfl
  | cons a t ih =>
    by_cases h : p a <;>
      simp [List.filterMap_cons, List.filter_cons, h, ih]

theorem maskSelect_map_map (gx : ℕ → ℚ) (p : ℕ → Bool) (l : List ℕ) :
    maskSelect (l.map gx) (l.map p) = (l.filter p).map gx := by
  unfold maskSelect
  rw [List.zip_map', List.filterMap_map]
  exact filterMap_ite p gx l

theorem eq_map_getD_range (y : List ℚ) (n : ℕ) (h : y.length = n) :
    y = (List.range n).map (fun j : ℕ => y.getD j 0) := by
  apply List.ext_getElem
  · simp [h]
  · intro i h1 h2
    simp only [List.getElem_map, List.getElem_range]
    rw [List.getD_eq_getElem _ _ (by omega)]

theorem foldl_set_length (l : List (ℕ × ℚ)) (ys : List ℚ) :
    (l.foldl (fun acc p => acc.set p.1 p.2) ys).length = ys.length := by
  induction l generalizing ys with
  | nil => rfl
  | cons a t ih => rw [List.foldl_cons, ih, List.length_set]

theorem setIndices_length (ys : List ℚ) (idxs : List ℕ) (vals : List ℚ) :
    (setIndices ys idxs vals).length = ys.length :=
  foldl_set_length _ _

theorem foldl_set_getD_not_mem (l : List (ℕ × ℚ)) (ys : List ℚ) (p : ℕ)
    (hp : ∀ q ∈ l, q.1 ≠ p) :
    (l.foldl (fun acc pr => acc.set pr.1 pr.2) ys).getD p 0 = ys.getD p 0 := by
  induction l generalizing ys with
  | nil => rfl
  | cons a t ih =>
    rw [List.foldl_cons, ih _ (fun q hq => hp q (by simp [hq]))]
    rw [List.getD_eq_getElem?_getD, List.getD_eq_getElem?_getD,
      List.getElem?_set_ne (hp a (by simp))]

theorem setIndices_getD_cons (ys : List ℚ) (a : ℕ) (b : ℚ) (idxs : List ℕ) (vals : List ℚ) :
    setIndices ys (a :: idxs) (b :: vals) = setIndices (ys.set a b) idxs vals := rfl

theorem setIndices_getD (ys : List ℚ) (idxs : List ℕ) (vals : List ℚ) (j : ℕ)
    (hpw : idxs.Pairwise (· < ·)) (hlen : idxs.length = vals.length)
    (hb : ∀ i ∈ idxs, i < ys.length) (hj : j < idxs.length) :
    (setIndices ys idxs vals).getD (idxs.getD j 0) 0 = vals.getD j 0 := by
  induction idxs generalizing ys vals j with
  | nil => exact absurd hj (by simp)
  | cons a t ih =>
    cases vals with
    | nil => simp at hlen
    | cons b vt =>
      rw [setIndices_getD_cons]
      cases j with
      | zero =>
        show (setIndices (ys.set a b) t vt).getD a 0 = b
        have hnot : ∀ q ∈ t.zip vt, q.1 ≠ a := by
          intro q hq
          have hq1 : q.1 ∈ t := (List.of_mem_zip hq).1
          have := (List.pairwise_cons.mp hpw).1 q.1 hq1
          omega
        show ((t.zip vt).foldl (fun acc pr => acc.set pr.1 pr.2) (ys.set a b)).getD a 0 = b
        rw [foldl_set_getD_not_mem _ _ _ hnot]
        rw [List.getD_eq_getElem?_getD, List.getElem?_set_self (hb a (by simp))]
        rfl
      | succ k =>
        show (setIndices (ys.set a b) t vt).getD (t.getD k 0) 0 = vt.getD k 0
        apply ih
        · exact (List.pairwise_cons.mp hpw).2
        · simpa using hlen
        · intro i hi
          rw [List.length_set]
          exact hb i (by simp [hi])
        · simpa using hj

/-! ### Characterization of the resampler on the orchestrator's inputs
(`x = np.arange(len(signal))`, as in `find_template_extract_inds`). -/

theorem contains_eq_of_mem_iff (l1 l2 : List ℕ)
    (h : ∀ j : ℕ, j ∈ l1 ↔ j ∈ l2) (j : ℕ) : l1.contains j = l2.contains j := by
  show l1.elem j = l2.elem j
  rw [List.elem_eq_mem, List.elem_eq_mem]
  exact Bool.decide_congr (h j)

theorem labelPositions_mem_lt (n : ℕ) (labels : List ℕ) (j : ℕ)
    (h : j ∈ labelPositions n labels) : j < n := by
  unfold labelPositions at h
  exact List.mem_range.mp (List.mem_filter.mp h).1

theorem labelPositions_pairwise (n : ℕ) (labels : List ℕ) :
    (labelPositions n labels).Pairwise (· < ·) :=
  (List.pairwise_lt_range n).filter _

theorem maskSelect_arange (n : ℕ) (labels : List ℕ) :
    maskSelect (arangeQ n) (inflectionMask n labels)
      = (labelPositions n labels).map (fun j : ℕ => (j : ℚ)) :=
  maskSelect_map_map _ _ _

theorem maskSelect_signal (n : ℕ) (labels : List ℕ) (y : List ℚ) (hy : y.length = n) :
    maskSelect y (inflectionMask n labels)
      = (labelPositions n labels).map (fun j : ℕ => y.getD j 0) := by
  conv_lhs => rw [eq_map_getD_range y n hy]
  exact maskSelect_map_map _ _ _

theorem getD_map_lt {α β : Type} (l : List α) (g : α → β) (j : ℕ) (d : α) (e : β)
    (h : j < l.length) : (l.map g).getD j e = g (l.getD j d) := by
  rw [List.getD_eq_getElem _ _ (by simpa using h), List.getD_eq_getElem _ _ h,
    List.getElem_map]

/-- The remap function applied to each label position: `searchsorted` into the
uniform grid `linspace 0 (n-1) (n*f)` at an integer label `j` lands at
`⌈j*(n*f-1)/(n-1)⌉`. -/
def remapIndex (n f j : ℕ) : ℕ :=
  ⌈(j : ℚ) * (((n * f : ℕ) : ℚ) - 1) / ((n : ℚ) - 1)⌉₊

theorem upsample_arange_inds (interp : List ℚ → List ℚ → ℚ → ℚ) (n f : ℕ)
    (y : List ℚ) (labels : List ℕ) (hn : 2 ≤ n) (hf : 1 ≤ f) :
    (upsample_with_inflections interp (arangeQ n) y labels f).2.2
      = (labelPositions n labels).map (remapIndex n f) := by
  show ((maskSelect (arangeQ n) (inflectionMask (arangeQ n).length labels)).map
      (searchsorted
        (linspace (listMinQ (arangeQ n)) (listMaxQ (arangeQ n)) ((arangeQ n).length * f)))) = _
  rw [arangeQ_length, listMinQ_arangeQ, listMaxQ_arangeQ n (by omega), maskSelect_arange,
    List.map_map]
  apply List.map_congr_left
  intro j hj
  have hjn : j < n := labelPositions_mem_lt n labels j hj
  show searchsorted (linspace 0 ((n : ℚ) - 1) (n * f)) (j : ℚ) = remapIndex n f j
  rw [searchsorted_linspace n f _ hn hf]
  exact min_eq_right (le_of_lt (ceil_grid_lt_bound n f j hn hf hjn))

theorem upsample_arange_yNew (interp : List ℚ → List ℚ → ℚ → ℚ) (n f : ℕ)
    (y : List ℚ) (labels : List ℕ) (hy : y.length = n) (hn : 2 ≤ n) (hf : 1 ≤ f) :
    (upsample_with_inflections interp (arangeQ n) y labels f).2.1
      = setIndices ((linspace 0 ((n : ℚ) - 1) (n * f)).map (interp (arangeQ n) y))
          ((labelPositions n labels).map (remapIndex n f))
          ((labelPositions n labels).map (fun j : ℕ => y.getD j 0)) := by
  show setIndices
      ((linspace (listMinQ (arangeQ n)) (listMaxQ (arangeQ n)) ((arangeQ n).length * f)).map
        (interp (arangeQ n) y))
      ((maskSelect (arangeQ n) (inflectionMask (arangeQ n).length labels)).map
        (searchsorted
          (linspace (listMinQ (arangeQ n)) (listMaxQ (arangeQ n)) ((arangeQ n).length * f))))
      (maskSelect y (inflectionMask (arangeQ n).length labels)) = _
  rw [arangeQ_length, listMinQ_arangeQ, listMaxQ_arangeQ n (by omega),
    maskSelect_signal n labels y hy]
  have hinds := upsample_arange_inds interp n f y labels hn hf
  rw [show ((maskSelect (arangeQ n) (inflectionMask n labels)).map
        (searchsorted (linspace 0 ((n : ℚ) - 1) (n * f))))
      = (labelPositions n labels).map (remapIndex n f) by
    rw [maskSelect_arange, List.map_map]
    apply List.map_congr_left
    intro j hj
    have hjn : j < n := labelPositions_mem_lt n labels j hj
    show searchsorted (linspace 0 ((n : ℚ) - 1) (n * f)) (j : ℚ) = remapIndex n f j
    rw [searchsorted_linspace n f _ hn hf]
    exact min_eq_right (le_of_lt (ceil_grid_lt_bound n f j hn hf hjn))]

theorem remapIndex_pairwise (n f : ℕ) (labels : List ℕ) (hn : 2 ≤ n) (hf : 1 ≤ f) :
    ((labelPositions n labels).map (remapIndex n f)).Pairwise (· < ·) := by
  rw [List.pairwise_map]
  exact (labelPositions_pairwise n labels).imp
    (fun hab => by
      rename_i a b
      exact ceil_grid_lt_of_lt n f a b hn hf hab)

theorem getD_mem_of_lt {α : Type} (l : List α) (n : ℕ) (d : α) (h : n < l.length) :
    l.getD n d ∈ l := by
  rw [List.getD_eq_getElem _ _ h]
  exact List.getElem_mem h

theorem upsample_arange_xNew (interp : List ℚ → List ℚ → ℚ → ℚ) (n f : ℕ)
    (y : List ℚ) (labels : List ℕ) (hn : 2 ≤ n) :
    (upsample_with_inflections interp (arangeQ n) y labels f).1
      = linspace 0 ((n : ℚ) - 1) (n * f) := by
  show linspace (listMinQ (arangeQ n)) (listMaxQ (arangeQ n)) ((arangeQ n).length * f) = _
  rw [arangeQ_length, listMinQ_arangeQ, listMaxQ_arangeQ n (by omega)]

theorem grid_val (n f k : ℕ) (hn : 2 ≤ n) (hf : 1 ≤ f) (hk : k < n * f) :
    (linspace 0 ((n : ℚ) - 1) (n * f)).getD k 0
      = ((n : ℚ) - 1) * (k : ℚ) / (((n * f : ℕ) : ℚ) - 1) := by
  rw [linspace_getD _ _ _ _ (le_trans hn (Nat.le_mul_of_pos_right n (by omega))) hk]
  push_cast
  ring

/-- **C2.** For every raw signal of at least 4 samples (with implicit positions
`np.arange n`, as the orchestrator supplies them), every in-bounds LabelSet and
every integer upsample factor ≥ 1, the `UpsampledSignal` returned by
`upsample_with_inflections` holds, at each re-mapped label index, exactly the
original raw sample value of the corresponding label — for an arbitrary
interpolant, since the interpolated value at that position is overwritten.
The `j`-th re-mapped index corresponds to the `j`-th smallest distinct label. -/
theorem upsample_preserves_label_values (interp : List ℚ → List ℚ → ℚ → ℚ)
    (n f : ℕ) (y : List ℚ) (labels : List ℕ) (j : ℕ)
    (hn : 4 ≤ n) (hf : 1 ≤ f) (hy : y.length = n) (_hl : ∀ l ∈ labels, l < n)
    (hj : j < (upsample_with_inflections interp (arangeQ n) y labels f).2.2.length) :
    (upsample_with_inflections interp (arangeQ n) y labels f).2.1.getD
        ((upsample_with_inflections interp (arangeQ n) y labels f).2.2.getD j 0) 0
      = y.getD ((labelPositions n labels).getD j 0) 0 := by
  have hn2 : 2 ≤ n := by omega
  rw [upsample_arange_inds interp n f y labels hn2 hf] at hj ⊢
  rw [upsample_arange_yNew interp n f y labels hy hn2 hf]
  simp only [List.length_map] at hj
  have hmain := setIndices_getD
    ((linspace 0 ((n : ℚ) - 1) (n * f)).map (interp (arangeQ n) y))
    ((labelPositions n labels).map (remapIndex n f))
    ((labelPositions n labels).map (fun j : ℕ => y.getD j 0)) j
    (remapIndex_pairwise n f labels hn2 hf)
    (by simp)
    (by
      intro i hi
      simp only [List.mem_map] at hi
      obtain ⟨p, hp, rfl⟩ := hi
      rw [List.length_map, linspace_length]
      exact ceil_grid_lt_bound n f p hn2 hf (labelPositions_mem_lt n labels p hp))
    (by simpa using hj)
  rw [getD_map_lt (labelPositions n labels) (fun j : ℕ => y.getD j 0) j 0 0 hj] at hmain
  exact hmain

/-- Witness for C2: `n = 4`, `f = 1`, `y = [5,6,7,8]`, labels `[2]`; the value
at the re-mapped index of label 2 equals `y[2] = 7`. -/
theorem upsample_preserves_label_values_wit :
    0 < (upsample_with_inflections (fun _ _ _ => 0) (arangeQ 4)
          [5, 6, 7, 8] [2] 1).2.2.length
    ∧ (upsample_with_inflections (fun _ _ _ => 0) (arangeQ 4)
          [5, 6, 7, 8] [2] 1).2.1.getD
        ((upsample_with_inflections (fun _ _ _ => 0) (arangeQ 4)
          [5, 6, 7, 8] [2] 1).2.2.getD 0 0) 0
      = ([5, 6, 7, 8] : List ℚ).getD ((labelPositions 4 [2]).getD 0 0) 0 :=
  ⟨by decide,
    upsample_preserves_label_values (fun _ _ _ => 0) 4 1 [5, 6, 7, 8] [2] 0
      (by decide) (by decide) (by decide) (by decide) (by decide)⟩

/-- **C10.** On the orchestrator's inputs, the re-mapped LabelSet returned by
`upsample_with_inflections` is strictly increasing (sorted, duplicates
removed), and depends only on the set of input labels: any reordering or
duplication of the input inflection indices yields the same output. -/
theorem remapped_labels_strictly_sorted (interp : List ℚ → List ℚ → ℚ → ℚ)
    (n f : ℕ) (y : List ℚ) (labels labels2 : List ℕ)
    (hn : 4 ≤ n) (hf : 1 ≤ f) (_hl : ∀ l ∈ labels, l < n)
    (hmem : ∀ j : ℕ, j ∈ labels2 ↔ j ∈ labels) :
    (upsample_with_inflections interp (arangeQ n) y labels f).2.2.Pairwise (· < ·)
    ∧ (upsample_with_inflections interp (arangeQ n) y labels2 f).2.2
        = (upsample_with_inflections interp (arangeQ n) y labels f).2.2 := by
  have hn2 : 2 ≤ n := by omega
  constructor
  · rw [upsample_arange_inds interp n f y labels hn2 hf]
    exact remapIndex_pairwise n f labels hn2 hf
  · rw [upsample_arange_inds interp n f y labels hn2 hf,
      upsample_arange_inds interp n f y labels2 hn2 hf]
    have hlp : labelPositions n labels2 = labelPositions n labels := by
      unfold labelPositions
      exact List.filter_congr (fun x _ => contains_eq_of_mem_iff labels2 labels hmem x)
    rw [hlp]

/-- Witness for C10: `n = 5`, `f = 2`, labels `[3,1,1]` versus `[1,3]` (same
set, different order and multiplicity). -/
theorem remapped_labels_strictly_sorted_wit :
    (∀ l ∈ ([3, 1, 1] : List ℕ), l < 5)
    ∧ ((upsample_with_inflections (fun _ _ _ => 0) (arangeQ 5)
          [0, 0, 0, 0, 0] [3, 1, 1] 2).2.2.Pairwise (· < ·)
      ∧ (upsample_with_inflections (fun _ _ _ => 0) (arangeQ 5)
          [0, 0, 0, 0, 0] [1, 3] 2).2.2
        = (upsample_with_inflections (fun _ _ _ => 0) (arangeQ 5)
          [0, 0, 0, 0, 0] [3, 1, 1] 2).2.2) :=
  ⟨by decide,
    remapped_labels_strictly_sorted (fun _ _ _ => 0) 5 2 [0, 0, 0, 0, 0] [3, 1, 1] [1, 3]
      (by decide) (by decide) (by decide)
      (by intro j; constructor <;> (intro h; simp at h ⊢; tauto))⟩

/-- **C6 counterexample.**  At `n = 5`, factor `f = 2`, label `1`: the new grid
is `linspace 0 4 10` with spacing `4/9`; the code re-maps label 1 to new index
3 (`searchsorted`: first grid point `≥ 1`, namely `4/3`), but grid index 2
(`8/9`) is strictly nearer to the label's original position `x = 1` (distance
`1/9` versus `1/3`).  So the re-mapped label is *not* located at the nearest
new sample position, refuting the claim as stated. -/
theorem remap_not_nearest_cex :
    (upsample_with_inflections (fun _ _ _ => 0) (arangeQ 5) [0, 0, 0, 0, 0] [1] 2).2.2 = [3]
    ∧ |(upsample_with_inflections (fun _ _ _ => 0) (arangeQ 5) [0, 0, 0, 0, 0] [1] 2).1.getD 2 0
          - 1|
      < |(upsample_with_inflections (fun _ _ _ => 0) (arangeQ 5) [0, 0, 0, 0, 0] [1] 2).1.getD 3 0
          - 1| := by
  constructor
  · rw [upsample_arange_inds (fun _ _ _ => 0) 5 2 [0, 0, 0, 0, 0] [1]
      (by norm_num) (by norm_num)]
    rw [show labelPositions 5 [1] = [1] by decide, List.map_cons, List.map_nil]
    have hr : remapIndex 5 2 1 = 3 := by
      unfold remapIndex
      rw [show ((1 : ℕ) : ℚ) * (((5 * 2 : ℕ) : ℚ) - 1) / (((5 : ℕ) : ℚ) - 1)
            = 9 / 4 by norm_num]
      rw [Nat.ceil_eq_iff (by norm_num)]
      norm_num
    rw [hr]
  · rw [upsample_arange_xNew (fun _ _ _ => 0) 5 2 [0, 0, 0, 0, 0] [1] (by norm_num)]
    rw [grid_val 5 2 2 (by norm_num) (by norm_num) (by norm_num),
      grid_val 5 2 3 (by norm_num) (by norm_num) (by norm_num)]
    rw [show ((5 : ℕ) : ℚ) - 1 = 4 by norm_num,
      show (((5 * 2 : ℕ) : ℕ) : ℚ) - 1 = 9 by norm_num]
    rw [show (4 : ℚ) * (2 : ℕ) / 9 - 1 = -(1 / 9) by norm_num,
      show (4 : ℚ) * (3 : ℕ) / 9 - 1 = 1 / 3 by norm_num]
    rw [abs_neg]
    rw [abs_of_nonneg (by norm_num : (0 : ℚ) ≤ 1 / 9),
      abs_of_nonneg (by norm_num : (0 : ℚ) ≤ 1 / 3)]
    norm_num

/-- **C6 amended.**  For every raw signal with at least 4 samples and every
integer upsample factor ≥ 1, the Resampler produces an `UpsampledSignal` of
length `len(signal) × factor`, and each re-mapped label lands at the *first*
new sample position whose x-coordinate is ≥ the label's original sample
position (`np.searchsorted`, side='left') — which is not in general the
nearest position. -/
theorem upsample_length_and_remap_ceil (interp : List ℚ → List ℚ → ℚ → ℚ)
    (n f : ℕ) (y : List ℚ) (labels : List ℕ)
    (hn : 4 ≤ n) (hf : 1 ≤ f) (hy : y.length = n) (_hl : ∀ l ∈ labels, l < n) :
    (upsample_with_inflections interp (arangeQ n) y labels f).2.1.length = n * f
    ∧ ∀ j : ℕ,
        j < (upsample_with_inflections interp (arangeQ n) y labels f).2.2.length →
        ((upsample_with_inflections interp (arangeQ n) y labels f).2.2.getD j 0 < n * f
        ∧ (((labelPositions n labels).getD j 0 : ℕ) : ℚ)
            ≤ (upsample_with_inflections interp (arangeQ n) y labels f).1.getD
                ((upsample_with_inflections interp (arangeQ n) y labels f).2.2.getD j 0) 0
        ∧ ∀ i : ℕ,
            i < (upsample_with_inflections interp (arangeQ n) y labels f).2.2.getD j 0 →
            (upsample_with_inflections interp (arangeQ n) y labels f).1.getD i 0
              < (((labelPositions n labels).getD j 0 : ℕ) : ℚ)) := by
  have hn2 : 2 ≤ n := by omega
  have hm2 : 2 ≤ n * f := le_trans hn2 (Nat.le_mul_of_pos_right n (by omega))
  have hM : (0 : ℚ) < ((n * f : ℕ) : ℚ) - 1 := by
    have : (2 : ℚ) ≤ ((n * f : ℕ) : ℚ) := by exact_mod_cast hm2
    linarith
  have hN : (0 : ℚ) < (n : ℚ) - 1 := by
    have : (2 : ℚ) ≤ (n : ℚ) := by exact_mod_cast hn2
    linarith
  constructor
  · rw [upsample_arange_yNew interp n f y labels hy hn2 hf, setIndices_length,
      List.length_map, linspace_length]
  · intro j hj
    rw [upsample_arange_inds interp n f y labels hn2 hf] at hj ⊢
    rw [upsample_arange_xNew interp n f y labels hn2]
    simp only [List.length_map] at hj
    rw [getD_map_lt (labelPositions n labels) (remapIndex n f) j 0 0 hj]
    have hpn : (labelPositions n labels).getD j 0 < n :=
      labelPositions_mem_lt n labels _ (getD_mem_of_lt _ _ _ hj)
    have hk : remapIndex n f ((labelPositions n labels).getD j 0) < n * f :=
      ceil_grid_lt_bound n f _ hn2 hf hpn
    refine ⟨hk, ?_, ?_⟩
    · rw [grid_val n f _ hn2 hf hk, le_div_iff₀ hM]
      have hle : ((labelPositions n labels).getD j 0 : ℚ) * (((n * f : ℕ) : ℚ) - 1)
            / ((n : ℚ) - 1)
          ≤ ((remapIndex n f ((labelPositions n labels).getD j 0) : ℕ) : ℚ) :=
        Nat.le_ceil _
      have hident : ((labelPositions n labels).getD j 0 : ℚ) * (((n * f : ℕ) : ℚ) - 1)
          = (((labelPositions n labels).getD j 0 : ℚ) * (((n * f : ℕ) : ℚ) - 1)
              / ((n : ℚ) - 1)) * ((n : ℚ) - 1) :=
        (div_mul_cancel₀ _ hN.ne').symm
      nlinarith [hle, hN, hident]
    · intro i hi
      rw [grid_val n f i hn2 hf (lt_trans hi hk)]
      have hlt : (i : ℚ)
          < ((labelPositions n labels).getD j 0 : ℚ) * (((n * f : ℕ) : ℚ) - 1)
              / ((n : ℚ) - 1) :=
        Nat.lt_ceil.mp hi
      rw [div_lt_iff₀ hM]
      have hident : ((labelPositions n labels).getD j 0 : ℚ) * (((n * f : ℕ) : ℚ) - 1)
          = (((labelPositions n labels).getD j 0 : ℚ) * (((n * f : ℕ) : ℚ) - 1)
              / ((n : ℚ) - 1)) * ((n : ℚ) - 1) :=
        (div_mul_cancel₀ _ hN.ne').symm
      nlinarith [hlt, hN, hident]

/-- Witness for the amended C6 at `n = 4`, `f = 2`, `y = [5,6,7,8]`,
labels `[2]`. -/
theorem upsample_length_and_remap_ceil_wit :
    (([5, 6, 7, 8] : List ℚ).length = 4 ∧ ∀ l ∈ ([2] : List ℕ), l < 4)
    ∧ ((upsample_with_inflections (fun _ _ _ => 0) (arangeQ 4)
          [5, 6, 7, 8] [2] 2).2.1.length = 4 * 2
      ∧ ∀ j : ℕ,
          j < (upsample_with_inflections (fun _ _ _ => 0) (arangeQ 4)
                [5, 6, 7, 8] [2] 2).2.2.length →
          ((upsample_with_inflections (fun _ _ _ => 0) (arangeQ 4)
                [5, 6, 7, 8] [2] 2).2.2.getD j 0 < 4 * 2
          ∧ (((labelPositions 4 [2]).getD j 0 : ℕ) : ℚ)
              ≤ (upsample_with_inflections (fun _ _ _ => 0) (arangeQ 4)
                    [5, 6, 7, 8] [2] 2).1.getD
                  ((upsample_with_inflections (fun _ _ _ => 0) (arangeQ 4)
                    [5, 6, 7, 8] [2] 2).2.2.getD j 0) 0
          ∧ ∀ i : ℕ,
              i < (upsample_with_inflections (fun _ _ _ => 0) (arangeQ 4)
                    [5, 6, 7, 8] [2] 2).2.2.getD j 0 →
              (upsample_with_inflections (fun _ _ _ => 0) (arangeQ 4)
                    [5, 6, 7, 8] [2] 2).1.getD i 0
                < (((labelPositions 4 [2]).getD j 0 : ℕ) : ℚ))) :=
  ⟨⟨by decide, by decide⟩,
    upsample_length_and_remap_ceil (fun _ _ _ => 0) 4 2 [5, 6, 7, 8] [2]
      (by decide) (by decide) (by decide) (by decide)⟩

/-! ### numpy slice / matrix helpers used by the smoother and template builder -/

/-- Python/numpy basic slice `l[a:b]` (step 1): negative indices wrap by the
array length, then both endpoints clip into `[0, len]`; never raises. -/
def pySlice (l : List ℚ) (a b : ℤ) : List ℚ :=
  let n : ℤ := (l.length : ℤ)
  let a' := if a < 0 then a + n else a
  let b' := if b < 0 then b + n else b
  let a2 := (max 0 (min a' n)).toNat
  let b2 := (max 0 (min b' n)).toNat
  (l.take b2).drop a2

/-- Dot product of two rows (truncating, used only on equal lengths). -/
def dotQ (u v : List ℚ) : ℚ := ((u.zip v).map (fun p => p.1 * p.2)).sum

/-- Transpose of a rectangular matrix given as rows. -/
def transposeL (m : List (List ℚ)) : List (List ℚ) :=
  (List.range (m.headD []).length).map (fun j => m.map (fun r => r.getD j 0))

/-- Matrix product (rows × rows). -/
def matMulL (A B : List (List ℚ)) : List (List ℚ) :=
  A.map (fun r => (transposeL B).map (fun c => dotQ r c))

/-- Determinant by Laplace expansion along the first row; the fuel argument is
the matrix dimension (structural recursion). -/
def detL : ℕ → List (List ℚ) → ℚ
  | 0, _ => 1
  | _ + 1, [] => 1
  | fuel + 1, r :: rs =>
    ((List.range r.length).map
      (fun j => (-1 : ℚ) ^ j * r.getD j 0
        * detL fuel (rs.map (fun row => row.eraseIdx j)))).sum

/-- Minor: delete row `i` and column `j`. -/
def minorL (m : List (List ℚ)) (i j : ℕ) : List (List ℚ) :=
  (m.eraseIdx i).map (fun r => r.eraseIdx j)

/-- Inverse of a square matrix via the adjugate (exact over `ℚ`; on a singular
matrix the entries divide by zero, i.e. become junk without raising, like the
least-squares solve it implements never raises on the full-rank inputs used). -/
def invL (m : List (List ℚ)) : List (List ℚ) :=
  (List.range m.length).map (fun i =>
    (List.range m.length).map (fun j =>
      (-1 : ℚ) ^ (i + j) * detL (m.length - 1) (minorL m j i) / detL m.length m))

/-- `np.linalg.pinv` for a full-column-rank matrix: `(BᵀB)⁻¹Bᵀ`, exactly. -/
def pinvL (m : List (List ℚ)) : List (List ℚ) :=
  matMulL (invL (matMulL (transposeL m) m)) (transposeL m)

/-- The Savitzky–Golay design matrix `b = [[k^i for i in 0..order] for k in
-half_window..half_window]`. -/
def savgolB (half_window order : ℕ) : List (List ℚ) :=
  (List.range (2 * half_window + 1)).map (fun r =>
    (List.range (order + 1)).map (fun i => (((r : ℤ) - (half_window : ℤ) : ℤ) : ℚ) ^ i))

/-- Full convolution `np.convolve a v` (zero-padded). -/
def convFull (a v : List ℚ) : List ℚ :=
  (List.range (a.length + v.length - 1)).map (fun k =>
    ((List.range a.length).map (fun j =>
      if j ≤ k ∧ k - j < v.length then a.getD j 0 * v.getD (k - j) 0 else 0)).sum)

/-- `np.convolve a v` with mode='valid': the `max-min+1` central entries of the
full convolution. -/
def convValid (a v : List ℚ) : List ℚ :=
  ((convFull a v).drop (min a.length v.length - 1)).take
    (max a.length v.length - min a.length v.length + 1)

def windowErr : String := "TypeError: window_size size must be a positive odd number"

def orderErr : String := "TypeError: window_size is too small for the polynomials order"

def indexErr : String := "IndexError: index 0 is out of bounds for axis 0 with size 0"

/-- `Template_Matching.savitzky_golay(y, window_size, order, deriv, rate)`.
`int()`+`np.abs` first replace both parameters by their absolute values; the
two `TypeError` validations follow the source exactly; then the precomputed
pseudo-inverse row gives the convolution kernel, the signal is padded by
reflection about its first/last values, and the valid-mode convolution is
returned.  An empty input signal raises (`y[0]`), modelled as the
`IndexError` branch. -/
def savitzky_golay (y : List ℚ) (window_size order : ℤ) (deriv : ℕ) (rate : ℚ) :
    Except String (List ℚ) :=
  let w : ℕ := window_size.natAbs
  let p : ℕ := order.natAbs
  if w % 2 ≠ 1 ∨ w < 1 then .error windowErr
  else if w < p + 2 then .error orderErr
  else
    let half_window := (w - 1) / 2
    let b := savgolB half_window p
    let m := ((pinvL b).getD deriv []).map
      (fun c => c * rate ^ deriv * (Nat.factorial deriv : ℚ))
    match y with
    | [] => .error indexErr
    | y0 :: _ =>
      let yl := y.getLastD 0
      let firstvals := ((pySlice y 1 ((half_window : ℤ) + 1)).reverse).map
        (fun w => y0 - |w - y0|)
      let lastvals := ((pySlice y (-(half_window : ℤ) - 1) (-1)).reverse).map
        (fun w => yl + |w - yl|)
      .ok (convValid m.reverse (firstvals ++ y ++ lastvals))

/-! ### The `Template_Matching` object state and its methods -/

/-- A numpy value that may be a scalar (e.g. `np.mean` of a 1-D array), a 1-D
vector, or `nan` (`np.mean` of an empty array). -/
inductive NpVal where
  | nan : NpVal
  | scalar : ℚ → NpVal
  | vector : List ℚ → NpVal
deriving DecidableEq

/-- The `templateArr` accumulator: `np.array([])` starts 1-D; `np.vstack`
produces a 2-D array. -/
inductive TArr where
  | v1 : List ℚ → TArr
  | v2 : List (List ℚ) → TArr
deriving DecidableEq

/-- `len()` of the accumulator: length of a 1-D array, number of rows of a
2-D array. -/
def TArr.len : TArr → ℕ
  | .v1 l => l.length
  | .v2 rows => rows.length

def vstackErr : String := "ValueError: all the input array dimensions must match"

/-- `np.vstack((arr, w))`: succeeds exactly when the new 1-D row matches the
existing row width; otherwise raises `ValueError`. -/
def vstackRow : TArr → List ℚ → Except String TArr
  | .v1 r, w => if w.length = r.length then .ok (.v2 [r, w]) else .error vstackErr
  | .v2 rows, w =>
    if w.length = (rows.headD []).length then .ok (.v2 (rows ++ [w]))
    else .error vstackErr

/-- `np.mean(arr, axis=0)`: scalar for a 1-D array, columnwise mean for a 2-D
array, `nan` for an empty one. -/
def meanAxis0 : TArr → NpVal
  | .v1 [] => .nan
  | .v1 l => .scalar (l.sum / (l.length : ℚ))
  | .v2 rows => .vector ((transposeL rows).map (fun c => c.sum / (c.length : ℚ)))

/-- The mutable fields of a `Template_Matching` object.  `overlapIndices` is
`Option`-valued because `__init__` never creates that attribute (reading it
raises `AttributeError` until an assignment completes, which never happens). -/
structure TMState where
  templateArr : TArr
  template : NpVal
  overlapVals : List ℚ
  overlapIndicesBuffer : List ℚ
  overlapValBuffer : List ℚ
  keptOverlapIndices : List ℚ
  upperInflPointRange : ℕ
  lowerInflPointRange : ℕ
  inflPointDict : List (ℕ × List ℤ)
  overlapIndices : Option (List ℚ)
deriving DecidableEq

/-- `Template_Matching.__init__`. -/
def initState : TMState where
  templateArr := .v1 []
  template := .scalar 0
  overlapVals := []
  overlapIndicesBuffer := []
  overlapValBuffer := []
  keptOverlapIndices := []
  upperInflPointRange := 100
  lowerInflPointRange := 100
  inflPointDict := []
  overlapIndices := none

/-- One iteration of `extract_template`'s loop: slice the window
`[idx - lowerRange, idx + upperRange)` (numpy slicing: clipped, never raises);
seed the accumulator if it is empty (`len(templateArr) == 0`), else `vstack`;
a `ValueError` from `vstack` is caught and printed, leaving the state
unchanged. -/
def extractStep (data : List ℚ) (s : TMState) (idx : ℕ) : TMState :=
  let w := pySlice data ((idx : ℤ) - (s.lowerInflPointRange : ℤ))
    ((idx : ℤ) + (s.upperInflPointRange : ℤ))
  if s.templateArr.len = 0 then { s with templateArr := .v1 w }
  else
    match vstackRow s.templateArr w with
    | .ok arr => { s with templateArr := arr }
    | .error _ => s

/-- `Template_Matching.extract_template(inputIndices, inputPressData)`. -/
def extract_template (s : TMState) (inputIndices : List ℕ) (inputPressData : List ℚ) :
    TMState :=
  let s' := inputIndices.foldl (extractStep inputPressData) s
  { s' with template := meanAxis0 s'.templateArr }

/-- Sum of absolute differences `np.sum(np.abs(a - b))` (on equal-length
arrays; numpy would raise on a shape mismatch, which cannot occur at the call
site because the sliced segment always has the template's full width there). -/
def sumAbsDiff (a b : List ℚ) : ℚ := ((a.zip b).map (fun p => |p.1 - p.2|)).sum

/-- The similarity score the matcher computes at position `i`:
`-(Σ|segment - template|) + signalIncreaseVal` for the window
`data[i : i + len(template)]`. -/
def overlapScore (data t : List ℚ) (B : ℚ) (i : ℕ) : ℚ :=
  -(sumAbsDiff (pySlice data (i : ℤ) ((i : ℤ) + (t.length : ℤ))) t) + B

/-- `np.where(vals == m)[0]`: every position holding the value `m`. -/
def npWhereEq (vals : List ℚ) (m : ℚ) : List ℕ :=
  (List.range vals.length).filter (fun j => decide (vals.getD j 0 = m))

/-- Fancy indexing `l[idxs]` for a list of positions. -/
def npSelect (l : List ℚ) (idxs : List ℕ) : List ℚ := idxs.map (fun i => l.getD i 0)

def attrErr : String := "AttributeError: Template_Matching instance has no attribute overlapIndices"

def typeLenErr : String := "TypeError: object of type numpy.float64 has no len"

/-- One iteration of `find_infl_using_template`'s loop, with the per-iteration
`try/except`: the returned `Option String` is the exception that was raised
inside the body and caught (printed), and the returned state holds every
mutation made before the raising statement.
* If `self.template` is not a vector, evaluating `len(self.template)` in the
  loop condition raises `TypeError` before any mutation.
* In the score>0 branch, the two buffer appends happen first; then
  `np.append(self.overlapIndices, …)` raises `AttributeError` whenever the
  attribute was never created (`overlapIndices = none`), which `__init__`
  guarantees; the assignment that would create it never completes. -/
def findInflBody (data : List ℚ) (B : ℚ) (s : TMState) (i : ℕ) :
    TMState × Option String :=
  match s.template with
  | .vector t =>
    if ((t.length : ℤ) < (i : ℤ) ∧ (i : ℤ) < (data.length : ℤ) - (t.length : ℤ)) then
      let overlapVal := overlapScore data t B i
      let s1 := { s with overlapVals := s.overlapVals ++ [overlapVal] }
      if overlapVal > 0 then
        let s2 := { s1 with
          overlapValBuffer := s1.overlapValBuffer ++ [overlapVal],
          overlapIndicesBuffer := s1.overlapIndicesBuffer ++ [(i : ℚ) - (t.length : ℚ)] }
        match s2.overlapIndices with
        | none => (s2, some attrErr)
        | some l =>
          ({ s2 with overlapIndices := some (l ++ [(i : ℚ) - (t.length : ℚ)]) }, none)
      else
        if 0 < s1.overlapValBuffer.length then
          let mx := listMaxQ s1.overlapValBuffer
          let maxOverlapPoint := npSelect s1.overlapIndicesBuffer (npWhereEq s1.overlapValBuffer mx)
          ({ s1 with
            keptOverlapIndices := s1.keptOverlapIndices ++ (maxOverlapPoint.map (fun q => q - 1)),
            overlapValBuffer := [],
            overlapIndicesBuffer := [] }, none)
        else (s1, none)
    else (s, none)
  | _ => (s, some typeLenErr)

/-- `Template_Matching.find_infl_using_template(inputPressData,
signalIncreaseVal)`: the loop over `range(len(inputPressData) - 2)` with every
iteration's exception caught. -/
def find_infl_using_template (s : TMState) (inputPressData : List ℚ)
    (signalIncreaseVal : ℚ) : TMState :=
  (List.range (inputPressData.length - 2)).foldl
    (fun st i => (findInflBody inputPressData signalIncreaseVal st i).1) s

/-- Python's built-in `round` on a float: round half to even. -/
def pyRound (q : ℚ) : ℤ :=
  if q - (⌊q⌋ : ℚ) < 1 / 2 then ⌊q⌋
  else if 1 / 2 < q - (⌊q⌋ : ℚ) then ⌊q⌋ + 1
  else if ⌊q⌋ % 2 = 0 then ⌊q⌋ else ⌊q⌋ + 1

/-- Dictionary assignment `d[k] = v` for an insertion-ordered association
list. -/
def dictSet (d : List (ℕ × List ℤ)) (k : ℕ) (v : List ℤ) : List (ℕ × List ℤ) :=
  if d.any (fun p => p.1 == k) then d.map (fun p => if p.1 == k then (k, v) else p)
  else d ++ [(k, v)]

/-- Dictionary lookup `d[k]` (as an `Option`). -/
def lookupD (d : List (ℕ × List ℤ)) (k : ℕ) : Option (List ℤ) :=
  (d.find? (fun p => p.1 == k)).map (fun p => p.2)

/-- `inputIndDict[key]` for the label dictionary. -/
def getLabels (indD : List (ℕ × List ℕ)) (k : ℕ) : List ℕ :=
  ((indD.find? (fun p => p.1 == k)).map (fun p => p.2)).getD []

/-- Python `dict.keys() == dict.keys()`: set equality of the key views. -/
def keysMatch (k1 k2 : List ℕ) : Bool :=
  k1.all (fun a => k2.contains a) && k2.all (fun a => k1.contains a)

/-- One pass of the orchestrator's per-dataset loop body
(`find_template_extract_inds`, lines inside `for key in …`): upsample with
`np.arange(len(press))`, smooth with `savitzky_golay(…, 93, 3)`, extract the
template, run the matcher, then compute
`round(kept) + len(template) + int(0.5 * len(template))` and store it under
the key.  `len(self.template)` on a non-vector template raises (uncaught here —
this line is outside any `try`), hence the `Except`. -/
def processDataset (interp : List ℚ → List ℚ → ℚ → ℚ) (upSampleFact : ℕ) (B : ℚ)
    (s : TMState) (key : ℕ) (press : List ℚ) (ind : List ℕ) : Except String TMState :=
  let r := upsample_with_inflections interp (arangeQ press.length) press ind upSampleFact
  match savitzky_golay r.2.1 93 3 0 1 with
  | .error e => .error e
  | .ok pressData =>
    let s1 := extract_template s r.2.2 pressData
    let s2 := find_infl_using_template s1 pressData B
    match s2.template with
    | .vector t =>
      let entry := s2.keptOverlapIndices.map
        (fun q => pyRound q + (t.length : ℤ) + ((t.length / 2 : ℕ) : ℤ))
      .ok { s2 with inflPointDict := dictSet s2.inflPointDict key entry }
    | _ => .error typeLenErr

/-- `Template_Matching.find_template_extract_inds(inputPressDict, inputIndDict,
upSampleFact, signalIncreaseVal)`.  A key-set mismatch prints a message and
returns `None` (no dataset processed, state untouched); otherwise every
dataset is processed in order on the *same* object state, and
`self.inflPointDict` is returned. -/
def find_template_extract_inds (interp : List ℚ → List ℚ → ℚ → ℚ) (s : TMState)
    (inputPressDict : List (ℕ × List ℚ)) (inputIndDict : List (ℕ × List ℕ))
    (upSampleFact : ℕ) (signalIncreaseVal : ℚ) :
    Except String (TMState × Option (List (ℕ × List ℤ))) :=
  if keysMatch (inputPressDict.map (fun p => p.1)) (inputIndDict.map (fun p => p.1))
      = false then
    .ok (s, none)
  else
    (inputPressDict.foldlM
      (fun st kp => processDataset interp upSampleFact signalIncreaseVal st kp.1 kp.2
        (getLabels inputIndDict kp.1)) s).map
      (fun sF => (sF, some sF.inflPointDict))

/-! ### Spec-side formulations for the matcher and peak extractor -/

/-- The positions at which the code actually emits a similarity score: the
loop range `range(len - 2)` filtered by `len(t) < i < len - len(t)`. -/
def codePositions (lenT len : ℕ) : List ℕ :=
  (List.range (len - 2)).filter
    (fun i => decide ((lenT : ℤ) < (i : ℤ)) && decide ((i : ℤ) < (len : ℤ) - (lenT : ℤ)))

/-- The positions the claim designates as valid: the full template-width window
fits inside the signal and the position is not within one template-width of
either end (all positions `i` with `lenT < i` and `i + lenT < len`). -/
def specValidPositions (lenT len : ℕ) : List ℕ :=
  (List.range len).filter (fun i => decide (lenT < i) && decide (i + lenT < len))

/-- The two-state peak extractor of the spec, amended for ties: on a positive
score, append the (buffered position, score) pair to the open run; on a
non-positive score with a non-empty open run, emit the buffered positions of
*all* occurrences of the run's maximum score, each minus 1, and clear the run.
State: (emitted indices, open run). -/
def specStep (st : List ℚ × List (ℚ × ℚ)) (pr : ℚ × ℚ) : List ℚ × List (ℚ × ℚ) :=
  if 0 < pr.2 then (st.1, st.2 ++ [pr])
  else if st.2.length ≠ 0 then
    (st.1 ++ ((st.2.filter
        (fun q => decide (q.2 = listMaxQ (st.2.map (fun z => z.2))))).map
      (fun q => q.1 - 1)), [])
  else st

/-- All indices the amended peak extractor emits over a trace; a run still open
at the end of the trace emits nothing. -/
def specEmits (trace : List (ℚ × ℚ)) : List ℚ := (trace.foldl specStep ([], [])).1

/-- The (buffered position, score) trace the matcher feeds the peak extractor:
position `i - len(t)` with score `overlapScore` at each code-valid `i`, in
increasing order. -/
def tracePairs (data t : List ℚ) (B : ℚ) : List (ℚ × ℚ) :=
  (codePositions t.length data.length).map
    (fun i : ℕ => ((i : ℚ) - (t.length : ℚ), overlapScore data t B i))

/-! ### C8: smoother validation -/

/-- Whether the smoother's result is one of its two configuration errors
(the `TypeError`s raised by the window/order validation). -/
def sgConfigError (r : Except String (List ℚ)) : Bool :=
  match r with
  | .error e => e == windowErr || e == orderErr
  | .ok _ => false

/-- **C8 counterexample.**  `savitzky_golay` first replaces `window_size` by
its absolute value, so the negative window `-5` — not a positive odd integer —
raises no error at all (with polynomial order 1 and any signal): the claim
"fails whenever w is not a positive odd integer" is false as stated. -/
theorem savgol_negative_window_ok_cex :
    (savitzky_golay [0, 0, 0, 0, 0, 0] (-5) 1 0 1).isOk = true ∧ (-5 : ℤ) < 0 :=
  ⟨rfl, by decide⟩

/-- **C8 amended.**  The Smoother validates the *absolute values* of the
(truncated-to-int) parameters: for every nonempty signal it raises a
configuration error exactly when `|w|` is not odd (in particular `w = 0`) or
`|w| < |p| + 2`, and raises no such error otherwise.  For positive `w`, `p`
this coincides with the claim. -/
theorem savgol_config_error_iff (y : List ℚ) (w p : ℤ) (hy : y ≠ []) :
    sgConfigError (savitzky_golay y w p 0 1) = true
      ↔ (w.natAbs % 2 ≠ 1 ∨ w.natAbs < p.natAbs + 2) := by
  unfold savitzky_golay
  by_cases h1 : w.natAbs % 2 ≠ 1 ∨ w.natAbs < 1
  · rw [if_pos h1]
    simp only [sgConfigError]
    constructor
    · intro _
      omega
    · intro _
      simp [windowErr]
  · rw [if_neg h1]
    by_cases h2 : w.natAbs < p.natAbs + 2
    · rw [if_pos h2]
      simp only [sgConfigError]
      constructor
      · intro _
        omega
      · intro _
        simp [windowErr, orderErr]
    · rw [if_neg h2]
      cases y with
      | nil => exact absurd rfl hy
      | cons y0 yt =>
        simp only [sgConfigError]
        constructor
        · intro hc
          exact absurd hc (by simp)
        · intro hc
          push_neg at h1
          omega

/-- Witness for the amended C8 at `y = [0]`, `w = 5`, `p = 1` (a valid
configuration: no error is raised). -/
theorem savgol_config_error_iff_wit :
    ([0] : List ℚ) ≠ []
    ∧ (sgConfigError (savitzky_golay [0] 5 1 0 1) = true
        ↔ ((5 : ℤ).natAbs % 2 ≠ 1 ∨ (5 : ℤ).natAbs < (1 : ℤ).natAbs + 2)) :=
  ⟨by decide, savgol_config_error_iff [0] 5 1 (by decide)⟩

/-! ### C7: orchestrator key-set mismatch -/

/-- **C7.**  If the key sets of the pressure-data mapping and the label mapping
differ, `find_template_extract_inds` reports the configuration error (prints
the message and returns `None`) before any dataset processing begins: no
dataset pipeline runs (the object state is returned untouched) and no output
mapping is produced. -/
theorem mismatched_keys_no_processing (interp : List ℚ → List ℚ → ℚ → ℚ)
    (s : TMState) (pd : List (ℕ × List ℚ)) (idd : List (ℕ × List ℕ)) (u : ℕ) (B : ℚ)
    (h : keysMatch (pd.map (fun p => p.1)) (idd.map (fun p => p.1)) = false) :
    find_template_extract_inds interp s pd idd u B = .ok (s, none) := by
  unfold find_template_extract_inds
  rw [if_pos h]

/-- Witness for C7: pressure keys `{0}` versus label keys `{1}`. -/
theorem mismatched_keys_no_processing_wit :
    keysMatch ([((0 : ℕ), ([] : List ℚ))].map (fun p => p.1))
        ([((1 : ℕ), ([] : List ℕ))].map (fun p => p.1)) = false
    ∧ find_template_extract_inds (fun _ _ _ => 0) initState
        [((0 : ℕ), ([] : List ℚ))] [((1 : ℕ), ([] : List ℕ))] 1 20
      = .ok (initState, none) :=
  ⟨by decide,
    mismatched_keys_no_processing (fun _ _ _ => 0) initState _ _ 1 20 (by decide)⟩

/-! ### C3: boundary labels during template extraction -/

theorem extract_template_templateArr (s : TMState) (li : List ℕ) (d : List ℚ) :
    (extract_template s li d).templateArr = (li.foldl (extractStep d) s).templateArr := rfl

theorem extract_template_template (s : TMState) (li : List ℕ) (d : List ℚ) :
    (extract_template s li d).template
      = meanAxis0 ((li.foldl (extractStep d) s).templateArr) := rfl

theorem extractStep_of_len_zero (data : List ℚ) (s : TMState) (idx : ℕ)
    (h : s.templateArr.len = 0) :
    extractStep data s idx
      = { s with templateArr := TArr.v1 (pySlice data
          ((idx : ℤ) - (s.lowerInflPointRange : ℤ)) ((idx : ℤ) + (s.upperInflPointRange : ℤ))) } := by
  unfold extractStep
  rw [if_pos h]

theorem extractStep_of_vstack_ok (data : List ℚ) (s : TMState) (idx : ℕ) (arr : TArr)
    (h : ¬s.templateArr.len = 0)
    (hv : vstackRow s.templateArr (pySlice data
      ((idx : ℤ) - (s.lowerInflPointRange : ℤ)) ((idx : ℤ) + (s.upperInflPointRange : ℤ)))
      = .ok arr) :
    extractStep data s idx = { s with templateArr := arr } := by
  unfold extractStep
  rw [if_neg h, hv]

theorem extractStep_of_vstack_err (data : List ℚ) (s : TMState) (idx : ℕ) (e : String)
    (h : ¬s.templateArr.len = 0)
    (hv : vstackRow s.templateArr (pySlice data
      ((idx : ℤ) - (s.lowerInflPointRange : ℤ)) ((idx : ℤ) + (s.upperInflPointRange : ℤ)))
      = .error e) :
    extractStep data s idx = s := by
  unfold extractStep
  rw [if_neg h, hv]

theorem vstackRow_v1_ok (r w : List ℚ) (h : w.length = r.length) :
    vstackRow (TArr.v1 r) w = .ok (TArr.v2 [r, w]) := by
  show (if w.length = r.length then (Except.ok (TArr.v2 [r, w]) : Except String TArr)
      else Except.error vstackErr) = Except.ok (TArr.v2 [r, w])
  rw [if_pos h]

theorem vstackRow_v2_err (rows : List (List ℚ)) (w : List ℚ)
    (h : ¬w.length = (rows.headD []).length) :
    vstackRow (TArr.v2 rows) w = .error vstackErr := by
  show (if w.length = (rows.headD []).length
      then (Except.ok (TArr.v2 (rows ++ [w])) : Except String TArr)
      else Except.error vstackErr) = Except.error vstackErr
  rw [if_neg h]

/-- **C3 counterexample.**  Fresh object (window 100+100), signal of 300 zero
samples, labels `[299, 150]`: the boundary label `299` comes *first*.  Its
window `[199:399]` is silently clipped by numpy to the 101 samples `[199:300]`
and — because the accumulator is empty — becomes the whole `templateArr`
(1-D, width 101).  The subsequent in-bounds label `150` then fails `vstack`
(width 200 ≠ 101) and is *discarded*, and the final template degenerates to
`np.mean` of the clipped window: a scalar (here `0`), not the average of the
good label's window.  So an out-of-bounds label that comes first is not
skipped; it corrupts the template, refuting the claim's "regardless of whether
the out-of-bounds label comes first". -/
theorem extract_template_boundary_first_cex :
    (extract_template initState [299, 150] (List.replicate 300 0)).templateArr
      = TArr.v1 (List.replicate 101 0)
    ∧ (extract_template initState [299, 150] (List.replicate 300 0)).template
      = NpVal.scalar 0 := by
  have h1 : (extract_template initState [299, 150] (List.replicate 300 0)).templateArr
      = TArr.v1 (List.replicate 101 0) := by
    set_option maxRecDepth 40000 in decide
  refine ⟨h1, ?_⟩
  rw [extract_template_template, ← extract_template_templateArr, h1]
  show NpVal.scalar ((List.replicate 101 (0 : ℚ)).sum / ((List.replicate 101 (0 : ℚ)).length : ℚ))
    = NpVal.scalar 0
  rw [List.sum_replicate, List.length_replicate]
  norm_num

/-- **C3 amended.**  A boundary label never raises a fatal error, but starting
from an empty accumulator it is skipped cleanly — no row, template uncorrupted —
only in two situations: (a) its clipped window is *empty* (a start-boundary
label such as index 0 on a signal longer than the window), in *any* position,
since seeding with an empty row leaves `len(templateArr) == 0` and the next
good label re-seeds the accumulator; (b) its clipped window is non-empty but
not full-width and a full-width row was accumulated before it, so the `vstack`
shape mismatch discards it.  Here: an empty-window label first, two good
labels, then a clipped label last — the accumulator holds exactly the two good
rows and the template is their column-wise mean.  (A *non-empty* clipped window
arriving while the accumulator is empty instead seeds and poisons it — see the
counterexample.) -/
theorem extract_template_skips_boundary_labels (s : TMState) (data : List ℚ)
    (b0 a0 a1 b : ℕ)
    (hfresh : s.templateArr = TArr.v1 [])
    (hpos : 0 < s.lowerInflPointRange + s.upperInflPointRange)
    (hb0 : (pySlice data ((b0 : ℤ) - (s.lowerInflPointRange : ℤ))
            ((b0 : ℤ) + (s.upperInflPointRange : ℤ))).length = 0)
    (h0 : (pySlice data ((a0 : ℤ) - (s.lowerInflPointRange : ℤ))
            ((a0 : ℤ) + (s.upperInflPointRange : ℤ))).length
          = s.lowerInflPointRange + s.upperInflPointRange)
    (h1 : (pySlice data ((a1 : ℤ) - (s.lowerInflPointRange : ℤ))
            ((a1 : ℤ) + (s.upperInflPointRange : ℤ))).length
          = s.lowerInflPointRange + s.upperInflPointRange)
    (hb : (pySlice data ((b : ℤ) - (s.lowerInflPointRange : ℤ))
            ((b : ℤ) + (s.upperInflPointRange : ℤ))).length
          ≠ s.lowerInflPointRange + s.upperInflPointRange) :
    (extract_template s [b0, a0, a1, b] data).templateArr
      = TArr.v2 [pySlice data ((a0 : ℤ) - (s.lowerInflPointRange : ℤ))
                   ((a0 : ℤ) + (s.upperInflPointRange : ℤ)),
                 pySlice data ((a1 : ℤ) - (s.lowerInflPointRange : ℤ))
                   ((a1 : ℤ) + (s.upperInflPointRange : ℤ))]
    ∧ (extract_template s [b0, a0, a1, b] data).template
      = NpVal.vector
          ((transposeL
            [pySlice data ((a0 : ℤ) - (s.lowerInflPointRange : ℤ))
               ((a0 : ℤ) + (s.upperInflPointRange : ℤ)),
             pySlice data ((a1 : ℤ) - (s.lowerInflPointRange : ℤ))
               ((a1 : ℤ) + (s.upperInflPointRange : ℤ))]).map
            (fun c => c.sum / (c.length : ℚ))) := by
  have e0 : extractStep data s b0
      = { s with templateArr := (TArr.v1 (pySlice data
          ((b0 : ℤ) - (s.lowerInflPointRange : ℤ))
          ((b0 : ℤ) + (s.upperInflPointRange : ℤ)))) } :=
    extractStep_of_len_zero data s b0 (by rw [hfresh]; rfl)
  have e1 : extractStep data (extractStep data s b0) a0
      = { s with templateArr := (TArr.v1 (pySlice data
          ((a0 : ℤ) - (s.lowerInflPointRange : ℤ))
          ((a0 : ℤ) + (s.upperInflPointRange : ℤ)))) } := by
    rw [e0]
    exact extractStep_of_len_zero data _ a0 hb0
  have e2 : extractStep data (extractStep data (extractStep data s b0) a0) a1
      = { s with templateArr := (TArr.v2
          [pySlice data ((a0 : ℤ) - (s.lowerInflPointRange : ℤ))
            ((a0 : ℤ) + (s.upperInflPointRange : ℤ)),
           pySlice data ((a1 : ℤ) - (s.lowerInflPointRange : ℤ))
            ((a1 : ℤ) + (s.upperInflPointRange : ℤ))]) } := by
    rw [e1]
    exact extractStep_of_vstack_ok data _ a1 _
      (by
        show ¬(pySlice data ((a0 : ℤ) - (s.lowerInflPointRange : ℤ))
            ((a0 : ℤ) + (s.upperInflPointRange : ℤ))).length = 0
        rw [h0]
        omega)
      (vstackRow_v1_ok _ _ (by rw [h0, h1]))
  have e3 : [b0, a0, a1, b].foldl (extractStep data) s
      = { s with templateArr := (TArr.v2
          [pySlice data ((a0 : ℤ) - (s.lowerInflPointRange : ℤ))
            ((a0 : ℤ) + (s.upperInflPointRange : ℤ)),
           pySlice data ((a1 : ℤ) - (s.lowerInflPointRange : ℤ))
            ((a1 : ℤ) + (s.upperInflPointRange : ℤ))]) } := by
    show extractStep data
        (extractStep data (extractStep data (extractStep data s b0) a0) a1) b = _
    rw [e2]
    exact extractStep_of_vstack_err data _ b vstackErr
      (by
        show ¬(2 : ℕ) = 0
        omega)
      (vstackRow_v2_err _ _ (by
        show ¬(pySlice data ((b : ℤ) - (s.lowerInflPointRange : ℤ))
            ((b : ℤ) + (s.upperInflPointRange : ℤ))).length
          = (pySlice data ((a0 : ℤ) - (s.lowerInflPointRange : ℤ))
              ((a0 : ℤ) + (s.upperInflPointRange : ℤ))).length
        rw [h0]
        exact hb))
  constructor
  · rw [extract_template_templateArr, e3]
  · rw [extract_template_template, e3]
    exact rfl

/-- Witness for the amended C3: window 2+2, ten zero samples, start-boundary
label 0 first (wrapped slice `data[8:2]` is empty), good labels 2 and 5, then
end-boundary label 9 (clipped window of width 3). -/
theorem extract_template_skips_boundary_labels_wit :
    (({ initState with lowerInflPointRange := 2, upperInflPointRange := 2 } : TMState).templateArr
        = TArr.v1 []
      ∧ (pySlice (List.replicate 10 0) ((0 : ℤ) - 2) ((0 : ℤ) + 2)).length = 0
      ∧ (pySlice (List.replicate 10 0) ((2 : ℤ) - 2) ((2 : ℤ) + 2)).length = 2 + 2
      ∧ (pySlice (List.replicate 10 0) ((5 : ℤ) - 2) ((5 : ℤ) + 2)).length = 2 + 2
      ∧ (pySlice (List.replicate 10 0) ((9 : ℤ) - 2) ((9 : ℤ) + 2)).length ≠ 2 + 2)
    ∧ ((extract_template { initState with lowerInflPointRange := 2, upperInflPointRange := 2 }
          [0, 2, 5, 9] (List.replicate 10 0)).templateArr
        = TArr.v2 [pySlice (List.replicate 10 0) ((2 : ℤ) - 2) ((2 : ℤ) + 2),
                   pySlice (List.replicate 10 0) ((5 : ℤ) - 2) ((5 : ℤ) + 2)]
      ∧ (extract_template { initState with lowerInflPointRange := 2, upperInflPointRange := 2 }
          [0, 2, 5, 9] (List.replicate 10 0)).template
        = NpVal.vector
            ((transposeL
              [pySlice (List.replicate 10 0) ((2 : ℤ) - 2) ((2 : ℤ) + 2),
               pySlice (List.replicate 10 0) ((5 : ℤ) - 2) ((5 : ℤ) + 2)]).map
              (fun c => c.sum / (c.length : ℚ)))) :=
  ⟨⟨rfl, by decide, by decide, by decide, by decide⟩,
    extract_template_skips_boundary_labels
      { initState with lowerInflPointRange := 2, upperInflPointRange := 2 }
      (List.replicate 10 0) 0 2 5 9 rfl (by decide) (by decide) (by decide) (by decide)
      (by decide)⟩

/-! ### Branch characterizations of the matcher loop body -/

theorem findInflBody_not_vector_nan (data : List ℚ) (B : ℚ) (s : TMState) (i : ℕ)
    (ht : s.template = NpVal.nan) : findInflBody data B s i = (s, some typeLenErr) := by
  simp only [findInflBody, ht]

theorem findInflBody_not_vector_scalar (data : List ℚ) (B : ℚ) (s : TMState) (i : ℕ)
    (q : ℚ) (ht : s.template = NpVal.scalar q) :
    findInflBody data B s i = (s, some typeLenErr) := by
  simp only [findInflBody, ht]

theorem findInflBody_cond_false (data : List ℚ) (B : ℚ) (s : TMState) (i : ℕ)
    (t : List ℚ) (ht : s.template = NpVal.vector t)
    (hc : ¬((t.length : ℤ) < (i : ℤ) ∧ (i : ℤ) < (data.length : ℤ) - (t.length : ℤ))) :
    findInflBody data B s i = (s, none) := by
  simp only [findInflBody, ht]
  rw [if_neg hc]

theorem findInflBody_pos_none (data : List ℚ) (B : ℚ) (s : TMState) (i : ℕ)
    (t : List ℚ) (ht : s.template = NpVal.vector t)
    (hc : (t.length : ℤ) < (i : ℤ) ∧ (i : ℤ) < (data.length : ℤ) - (t.length : ℤ))
    (hsc : 0 < overlapScore data t B i) (ha : s.overlapIndices = none) :
    findInflBody data B s i
      = ({ s with
          overlapVals := s.overlapVals ++ [overlapScore data t B i],
          overlapValBuffer := s.overlapValBuffer ++ [overlapScore data t B i],
          overlapIndicesBuffer := s.overlapIndicesBuffer ++ [(i : ℚ) - (t.length : ℚ)] },
        some attrErr) := by
  simp only [findInflBody, ht]
  rw [if_pos hc, if_pos hsc]
  simp only [ha]

theorem findInflBody_pos_some (data : List ℚ) (B : ℚ) (s : TMState) (i : ℕ)
    (t : List ℚ) (l : List ℚ) (ht : s.template = NpVal.vector t)
    (hc : (t.length : ℤ) < (i : ℤ) ∧ (i : ℤ) < (data.length : ℤ) - (t.length : ℤ))
    (hsc : 0 < overlapScore data t B i) (ha : s.overlapIndices = some l) :
    findInflBody data B s i
      = ({ s with
          overlapVals := s.overlapVals ++ [overlapScore data t B i],
          overlapValBuffer := s.overlapValBuffer ++ [overlapScore data t B i],
          overlapIndicesBuffer := s.overlapIndicesBuffer ++ [(i : ℚ) - (t.length : ℚ)],
          overlapIndices := some (l ++ [(i : ℚ) - (t.length : ℚ)]) },
        none) := by
  simp only [findInflBody, ht]
  rw [if_pos hc, if_pos hsc]
  simp only [ha]

theorem findInflBody_neg_emit (data : List ℚ) (B : ℚ) (s : TMState) (i : ℕ)
    (t : List ℚ) (ht : s.template = NpVal.vector t)
    (hc : (t.length : ℤ) < (i : ℤ) ∧ (i : ℤ) < (data.length : ℤ) - (t.length : ℤ))
    (hsc : ¬0 < overlapScore data t B i) (hne : 0 < s.overlapValBuffer.length) :
    findInflBody data B s i
      = ({ s with
          overlapVals := s.overlapVals ++ [overlapScore data t B i],
          keptOverlapIndices := s.keptOverlapIndices
            ++ ((npSelect s.overlapIndicesBuffer
                  (npWhereEq s.overlapValBuffer (listMaxQ s.overlapValBuffer))).map
                (fun q => q - 1)),
          overlapValBuffer := [],
          overlapIndicesBuffer := [] },
        none) := by
  simp only [findInflBody, ht]
  rw [if_pos hc, if_neg hsc, if_pos hne]

theorem findInflBody_neg_skip (data : List ℚ) (B : ℚ) (s : TMState) (i : ℕ)
    (t : List ℚ) (ht : s.template = NpVal.vector t)
    (hc : (t.length : ℤ) < (i : ℤ) ∧ (i : ℤ) < (data.length : ℤ) - (t.length : ℤ))
    (hsc : ¬0 < overlapScore data t B i) (hne : ¬0 < s.overlapValBuffer.length) :
    findInflBody data B s i
      = ({ s with overlapVals := s.overlapVals ++ [overlapScore data t B i] }, none) := by
  simp only [findInflBody, ht]
  rw [if_pos hc, if_neg hsc, if_neg hne]

theorem findInflBody_fst_template (data : List ℚ) (B : ℚ) (s : TMState) (i : ℕ) :
    ((findInflBody data B s i).1).template = s.template := by
  cases hts : s.template with
  | nan =>
    rw [findInflBody_not_vector_nan data B s i hts]
    exact hts
  | scalar q =>
    rw [findInflBody_not_vector_scalar data B s i q hts]
    exact hts
  | vector t =>
    by_cases hc : (t.length : ℤ) < (i : ℤ) ∧ (i : ℤ) < (data.length : ℤ) - (t.length : ℤ)
    · by_cases hsc : 0 < overlapScore data t B i
      · cases ha : s.overlapIndices with
        | none =>
          rw [findInflBody_pos_none data B s i t hts hc hsc ha]
          exact hts
        | some l =>
          rw [findInflBody_pos_some data B s i t l hts hc hsc ha]
          exact hts
      · by_cases hne : 0 < s.overlapValBuffer.length
        · rw [findInflBody_neg_emit data B s i t hts hc hsc hne]
          exact hts
        · rw [findInflBody_neg_skip data B s i t hts hc hsc hne]
          exact hts
    · rw [findInflBody_cond_false data B s i t hts hc]
      exact hts

theorem findInflBody_attr_none (data : List ℚ) (B : ℚ) (s : TMState) (i : ℕ)
    (h : s.overlapIndices = none) : ((findInflBody data B s i).1).overlapIndices = none := by
  cases hts : s.template with
  | nan => rw [findInflBody_not_vector_nan data B s i hts]; exact h
  | scalar q => rw [findInflBody_not_vector_scalar data B s i q hts]; exact h
  | vector t =>
    by_cases hc : (t.length : ℤ) < (i : ℤ) ∧ (i : ℤ) < (data.length : ℤ) - (t.length : ℤ)
    · by_cases hsc : 0 < overlapScore data t B i
      · rw [findInflBody_pos_none data B s i t hts hc hsc h]
        exact h
      · by_cases hne : 0 < s.overlapValBuffer.length
        · rw [findInflBody_neg_emit data B s i t hts hc hsc hne]
          exact h
        · rw [findInflBody_neg_skip data B s i t hts hc hsc hne]
          exact h
    · rw [findInflBody_cond_false data B s i t hts hc]
      exact h

theorem findInflBody_overlapVals (data : List ℚ) (B : ℚ) (s : TMState) (i : ℕ)
    (t : List ℚ) (ht : s.template = NpVal.vector t) :
    ((findInflBody data B s i).1).overlapVals
      = s.overlapVals
        ++ (if ((t.length : ℤ) < (i : ℤ) ∧ (i : ℤ) < (data.length : ℤ) - (t.length : ℤ))
            then [overlapScore data t B i] else []) := by
  by_cases hc : (t.length : ℤ) < (i : ℤ) ∧ (i : ℤ) < (data.length : ℤ) - (t.length : ℤ)
  · rw [if_pos hc]
    by_cases hsc : 0 < overlapScore data t B i
    · cases ha : s.overlapIndices with
      | none => rw [findInflBody_pos_none data B s i t ht hc hsc ha]
      | some l => rw [findInflBody_pos_some data B s i t l ht hc hsc ha]
    · by_cases hne : 0 < s.overlapValBuffer.length
      · rw [findInflBody_neg_emit data B s i t ht hc hsc hne]
      · rw [findInflBody_neg_skip data B s i t ht hc hsc hne]
  · rw [if_neg hc, List.append_nil, findInflBody_cond_false data B s i t ht hc]

theorem foldl_findInflBody_overlapVals (l : List ℕ) (data : List ℚ) (B : ℚ)
    (t : List ℚ) (s : TMState) (ht : s.template = NpVal.vector t) :
    ((l.foldl (fun st i => (findInflBody data B st i).1) s).overlapVals)
      = s.overlapVals
        ++ (l.filter (fun i : ℕ => decide ((t.length : ℤ) < (i : ℤ))
            && decide ((i : ℤ) < (data.length : ℤ) - (t.length : ℤ)))).map
          (overlapScore data t B) := by
  induction l generalizing s with
  | nil => rw [List.foldl_nil, List.filter_nil, List.map_nil, List.append_nil]
  | cons a rest ih =>
    rw [List.foldl_cons, List.filter_cons,
      ih _ (by rw [findInflBody_fst_template]; exact ht),
      findInflBody_overlapVals data B s a t ht]
    by_cases hc : (t.length : ℤ) < (a : ℤ) ∧ (a : ℤ) < (data.length : ℤ) - (t.length : ℤ)
    · rw [if_pos hc, if_pos (by simpa using hc), List.map_cons, List.append_assoc]
      rfl
    · rw [if_neg hc, if_neg (by simpa using hc), List.append_nil]

theorem find_infl_overlapVals (s : TMState) (data : List ℚ) (B : ℚ) (t : List ℚ)
    (ht : s.template = NpVal.vector t) :
    (find_infl_using_template s data B).overlapVals
      = s.overlapVals ++ (codePositions t.length data.length).map (overlapScore data t B) :=
  foldl_findInflBody_overlapVals (List.range (data.length - 2)) data B t s ht

/-! ### C5: the similarity trace -/

theorem codePositions_eq_spec (lenT len : ℕ) (h2 : 2 ≤ lenT) :
    codePositions lenT len = specValidPositions lenT len := by
  unfold codePositions specValidPositions
  have hpred : ∀ i : ℕ,
      (decide ((lenT : ℤ) < (i : ℤ)) && decide ((i : ℤ) < (len : ℤ) - (lenT : ℤ)))
        = (decide (lenT < i) && decide (i + lenT < len)) := by
    intro i
    rw [decide_eq_decide.mpr (by omega : ((lenT : ℤ) < (i : ℤ)) ↔ lenT < i),
      decide_eq_decide.mpr (by omega : ((i : ℤ) < (len : ℤ) - (lenT : ℤ)) ↔ i + lenT < len)]
  rw [List.filter_congr (fun i _ => hpred i)]
  cases Nat.lt_or_ge len 2 with
  | inl hlen =>
    rw [show len - 2 = 0 by omega]
    rw [show List.range 0 = ([] : List ℕ) from rfl, List.filter_nil]
    symm
    rw [List.filter_eq_nil_iff]
    intro a _
    simp only [Bool.and_eq_true, decide_eq_true_eq, not_and]
    omega
  | inr hlen =>
    have hsplit : List.range len
        = List.range (len - 2) ++ (List.range 2).map (fun x => (len - 2) + x) := by
      rw [← List.range_add]
      congr 1
      omega
    rw [hsplit, List.filter_append]
    have hnil : ((List.range 2).map (fun x => (len - 2) + x)).filter
        (fun i => decide (lenT < i) && decide (i + lenT < len)) = [] := by
      rw [List.filter_eq_nil_iff]
      intro a ha
      simp only [List.mem_map, List.mem_range] at ha
      obtain ⟨x, hx, rfl⟩ := ha
      simp only [Bool.and_eq_true, decide_eq_true_eq, not_and]
      omega
    rw [hnil, List.append_nil]

/-- **C5 counterexample.**  With a template of width 1 and a signal of 6
samples, the matcher emits scores at only two positions (the loop stops at
`len - 3`), while the claim's valid-position set (`window fits ∧ not within one
template-width of either end`) has three positions — so for width-1 templates
the trace does not cover every claimed-valid position. -/
theorem trace_positions_width_one_cex :
    ((find_infl_using_template { initState with template := NpVal.vector [0] }
        (List.replicate 6 0) 1).overlapVals).length = 2
    ∧ ((specValidPositions 1 6).map
        (overlapScore (List.replicate 6 0) [0] 1)).length = 3 := by
  constructor
  · rw [find_infl_overlapVals _ _ _ [0] rfl]
    rw [show ({ initState with template := NpVal.vector [0] } : TMState).overlapVals
        = [] from rfl]
    rw [List.nil_append, List.length_map]
    decide
  · rw [List.length_map]
    decide

/-- **C5 amended.**  For every smoothed signal and template of width ≥ 2, the
matcher records exactly one similarity score per claimed-valid position
(window fits, not within one template-width of either end), in increasing
position order, and the score at position `i` is
`-(Σ|data[i:i+len t] - t|) + bias`.  (For width-1 templates the loop bound
`range(len-2)` additionally cuts the last valid position — see the
counterexample.) -/
theorem overlapVals_eq_spec_trace (s : TMState) (data t : List ℚ) (B : ℚ)
    (ht : s.template = NpVal.vector t) (hov : s.overlapVals = [])
    (h2 : 2 ≤ t.length) :
    (find_infl_using_template s data B).overlapVals
      = (specValidPositions t.length data.length).map (overlapScore data t B) := by
  rw [find_infl_overlapVals s data B t ht, hov, List.nil_append,
    codePositions_eq_spec t.length data.length h2]

/-- Witness for the amended C5: template `[0,0]`, six zero samples, bias 1. -/
theorem overlapVals_eq_spec_trace_wit :
    (({ initState with template := NpVal.vector [0, 0] } : TMState).template
        = NpVal.vector [0, 0]
      ∧ ({ initState with template := NpVal.vector [0, 0] } : TMState).overlapVals = []
      ∧ 2 ≤ ([0, 0] : List ℚ).length)
    ∧ (find_infl_using_template { initState with template := NpVal.vector [0, 0] }
          (List.replicate 6 0) 1).overlapVals
        = (specValidPositions ([0, 0] : List ℚ).length (List.replicate 6 (0 : ℚ)).length).map
            (overlapScore (List.replicate 6 0) [0, 0] 1) :=
  ⟨⟨rfl, rfl, by decide⟩,
    overlapVals_eq_spec_trace { initState with template := NpVal.vector [0, 0] }
      (List.replicate 6 0) [0, 0] 1 rfl rfl (by decide)⟩

/-! ### C9: the missing `overlapIndices` attribute -/

theorem find_infl_attr_none (s : TMState) (data : List ℚ) (B : ℚ)
    (h : s.overlapIndices = none) :
    (find_infl_using_template s data B).overlapIndices = none := by
  unfold find_infl_using_template
  generalize List.range (data.length - 2) = l
  induction l generalizing s with
  | nil => exact h
  | cons a rest ih =>
    rw [List.foldl_cons]
    exact ih _ (findInflBody_attr_none data B s a h)

/-- **C9.**  `find_infl_using_template` never propagates an exception: each
loop iteration catches its own.  On an object whose `overlapIndices` attribute
was never created (as `__init__` leaves it), every iteration whose score is
positive raises `AttributeError` inside the loop — *after* the two buffer
appends, so the (position, score) pair is still recorded — the attribute is
still absent afterwards (the assignment never completes, so this recurs at
every such iteration and the whole loop leaves it absent). -/
theorem find_infl_attribute_error_caught (s : TMState) (data : List ℚ) (B : ℚ)
    (t : List ℚ) (i : ℕ) (ht : s.template = NpVal.vector t)
    (hattr : s.overlapIndices = none)
    (hcond : (t.length : ℤ) < (i : ℤ) ∧ (i : ℤ) < (data.length : ℤ) - (t.length : ℤ))
    (hpos : 0 < overlapScore data t B i) :
    (findInflBody data B s i).2 = some attrErr
    ∧ ((findInflBody data B s i).1).overlapValBuffer
        = s.overlapValBuffer ++ [overlapScore data t B i]
    ∧ ((findInflBody data B s i).1).overlapIndicesBuffer
        = s.overlapIndicesBuffer ++ [(i : ℚ) - (t.length : ℚ)]
    ∧ ((findInflBody data B s i).1).overlapIndices = none
    ∧ (find_infl_using_template s data B).overlapIndices = none := by
  rw [findInflBody_pos_none data B s i t ht hcond hpos hattr]
  exact ⟨rfl, rfl, rfl, hattr, find_infl_attr_none s data B hattr⟩

/-- Witness for C9: fresh object with template `[0]`, six zero samples,
bias 1, iteration `i = 2` (score `1 > 0`). -/
theorem find_infl_attribute_error_caught_wit :
    (({ initState with template := NpVal.vector [0] } : TMState).template = NpVal.vector [0]
      ∧ ({ initState with template := NpVal.vector [0] } : TMState).overlapIndices = none
      ∧ (((([0] : List ℚ).length : ℤ) < ((2 : ℕ) : ℤ))
          ∧ (((2 : ℕ) : ℤ) < ((List.replicate 6 (0 : ℚ)).length : ℤ) - (([0] : List ℚ).length : ℤ)))
      ∧ 0 < overlapScore (List.replicate 6 0) [0] 1 2)
    ∧ ((findInflBody (List.replicate 6 0) 1 { initState with template := NpVal.vector [0] } 2).2
        = some attrErr
      ∧ ((findInflBody (List.replicate 6 0) 1 { initState with template := NpVal.vector [0] } 2).1).overlapValBuffer
          = ({ initState with template := NpVal.vector [0] } : TMState).overlapValBuffer
            ++ [overlapScore (List.replicate 6 0) [0] 1 2]
      ∧ ((findInflBody (List.replicate 6 0) 1 { initState with template := NpVal.vector [0] } 2).1).overlapIndicesBuffer
          = ({ initState with template := NpVal.vector [0] } : TMState).overlapIndicesBuffer
            ++ [((2 : ℕ) : ℚ) - (([0] : List ℚ).length : ℚ)]
      ∧ ((findInflBody (List.replicate 6 0) 1 { initState with template := NpVal.vector [0] } 2).1).overlapIndices = none
      ∧ (find_infl_using_template { initState with template := NpVal.vector [0] }
          (List.replicate 6 0) 1).overlapIndices = none) :=
  have hpos : 0 < overlapScore (List.replicate 6 0) [0] 1 2 := by
    unfold overlapScore
    rw [show pySlice (List.replicate 6 (0 : ℚ)) ((2 : ℕ) : ℤ)
        (((2 : ℕ) : ℤ) + (([0] : List ℚ).length : ℤ)) = [0] by decide]
    norm_num [sumAbsDiff]
  ⟨⟨rfl, rfl, by constructor <;> decide, hpos⟩,
    find_infl_attribute_error_caught { initState with template := NpVal.vector [0] }
      (List.replicate 6 0) 1 [0] 2 rfl rfl (by constructor <;> decide) hpos⟩

/-! ### C4: the peak extractor -/

theorem npWhereEq_cons (v : ℚ) (vs : List ℚ) (m : ℚ) :
    npWhereEq (v :: vs) m
      = (if v = m then [0] else []) ++ (npWhereEq vs m).map Nat.succ := by
  unfold npWhereEq
  rw [show (v :: vs).length = vs.length + 1 from rfl, List.range_succ_eq_map,
    List.filter_cons, List.filter_map]
  by_cases h : v = m
  · rw [if_pos (by simp [h]), if_pos h]
    rfl
  · rw [if_neg (by simp [h]), if_neg h]
    rfl

theorem npSelect_map_succ (x : ℚ) (xs : List ℚ) (idxs : List ℕ) :
    npSelect (x :: xs) (idxs.map Nat.succ) = npSelect xs idxs := by
  unfold npSelect
  rw [List.map_map]
  apply List.map_congr_left
  intro a _
  simp [Function.comp, List.getD_cons_succ]

theorem npSelect_npWhereEq (cur : List (ℚ × ℚ)) (m : ℚ) :
    npSelect (cur.map (fun z => z.1)) (npWhereEq (cur.map (fun z => z.2)) m)
      = (cur.filter (fun q => decide (q.2 = m))).map (fun q => q.1) := by
  induction cur with
  | nil => rfl
  | cons q rest ih =>
    rw [List.map_cons, List.map_cons, npWhereEq_cons,
      show npSelect (q.1 :: rest.map (fun z => z.1))
          ((if q.2 = m then [0] else [])
            ++ (npWhereEq (rest.map (fun z => z.2)) m).map Nat.succ)
        = npSelect (q.1 :: rest.map (fun z => z.1)) (if q.2 = m then [0] else [])
          ++ npSelect (q.1 :: rest.map (fun z => z.1))
              ((npWhereEq (rest.map (fun z => z.2)) m).map Nat.succ)
        from List.map_append _ _ _,
      npSelect_map_succ, ih]
    by_cases h : q.2 = m
    · rw [if_pos h, List.filter_cons, if_pos (by simp [h]), List.map_cons]
      rfl
    · rw [if_neg h, List.filter_cons, if_neg (by simp [h])]
      rfl

theorem find_infl_fold_filtered (l : List ℕ) (data : List ℚ) (B : ℚ) (t : List ℚ)
    (s : TMState) (ht : s.template = NpVal.vector t) :
    l.foldl (fun st i => (findInflBody data B st i).1) s
      = (l.filter (fun i : ℕ => decide ((t.length : ℤ) < (i : ℤ))
          && decide ((i : ℤ) < (data.length : ℤ) - (t.length : ℤ)))).foldl
        (fun st i => (findInflBody data B st i).1) s := by
  induction l generalizing s with
  | nil => rfl
  | cons a rest ih =>
    rw [List.foldl_cons, List.filter_cons]
    by_cases hc : (t.length : ℤ) < (a : ℤ) ∧ (a : ℤ) < (data.length : ℤ) - (t.length : ℤ)
    · rw [if_pos (by simpa using hc), List.foldl_cons]
      exact ih _ (by rw [findInflBody_fst_template]; exact ht)
    · rw [if_neg (by simpa using hc),
        show (findInflBody data B s a).1 = s by
          rw [findInflBody_cond_false data B s a t ht hc]]
      exact ih s ht

theorem find_infl_sim (data : List ℚ) (B : ℚ) (t : List ℚ) (l : List ℕ)
    (hl : ∀ i ∈ l, (t.length : ℤ) < (i : ℤ) ∧ (i : ℤ) < (data.length : ℤ) - (t.length : ℤ))
    (s : TMState) (st : List ℚ × List (ℚ × ℚ)) (k0 : List ℚ)
    (ht : s.template = NpVal.vector t)
    (h1 : s.overlapValBuffer = st.2.map (fun z => z.2))
    (h2 : s.overlapIndicesBuffer = st.2.map (fun z => z.1))
    (h3 : s.keptOverlapIndices = k0 ++ st.1) :
    (l.foldl (fun st2 i => (findInflBody data B st2 i).1) s).keptOverlapIndices
      = k0 ++ (l.foldl (fun acc (i : ℕ) =>
          specStep acc ((i : ℚ) - (t.length : ℚ), overlapScore data t B i)) st).1 := by
  induction l generalizing s st with
  | nil => simpa using h3
  | cons a rest ih =>
    have hc := hl a (by simp)
    rw [List.foldl_cons, List.foldl_cons]
    by_cases hsc : 0 < overlapScore data t B a
    · have hspec : specStep st ((a : ℚ) - (t.length : ℚ), overlapScore data t B a)
          = (st.1, st.2 ++ [((a : ℚ) - (t.length : ℚ), overlapScore data t B a)]) := by
        unfold specStep
        rw [if_pos hsc]
      rw [hspec]
      cases ha : s.overlapIndices with
      | none =>
        rw [findInflBody_pos_none data B s a t ht hc hsc ha]
        refine ih (fun i hi => hl i (by simp [hi]))
          ({ s with
            overlapVals := s.overlapVals ++ [overlapScore data t B a],
            overlapValBuffer := s.overlapValBuffer ++ [overlapScore data t B a],
            overlapIndicesBuffer := s.overlapIndicesBuffer ++ [(a : ℚ) - (t.length : ℚ)] })
          (st.1, st.2 ++ [((a : ℚ) - (t.length : ℚ), overlapScore data t B a)])
          ht ?_ ?_ ?_
        · show s.overlapValBuffer ++ [overlapScore data t B a]
            = (st.2 ++ [((a : ℚ) - (t.length : ℚ), overlapScore data t B a)]).map
              (fun z => z.2)
          rw [List.map_append, h1]
          rfl
        · show s.overlapIndicesBuffer ++ [(a : ℚ) - (t.length : ℚ)]
            = (st.2 ++ [((a : ℚ) - (t.length : ℚ), overlapScore data t B a)]).map
              (fun z => z.1)
          rw [List.map_append, h2]
          rfl
        · exact h3
      | some lx =>
        rw [findInflBody_pos_some data B s a t lx ht hc hsc ha]
        refine ih (fun i hi => hl i (by simp [hi]))
          ({ s with
            overlapVals := s.overlapVals ++ [overlapScore data t B a],
            overlapValBuffer := s.overlapValBuffer ++ [overlapScore data t B a],
            overlapIndicesBuffer := s.overlapIndicesBuffer ++ [(a : ℚ) - (t.length : ℚ)],
            overlapIndices := some (lx ++ [(a : ℚ) - (t.length : ℚ)]) })
          (st.1, st.2 ++ [((a : ℚ) - (t.length : ℚ), overlapScore data t B a)])
          ht ?_ ?_ ?_
        · show s.overlapValBuffer ++ [overlapScore data t B a]
            = (st.2 ++ [((a : ℚ) - (t.length : ℚ), overlapScore data t B a)]).map
              (fun z => z.2)
          rw [List.map_append, h1]
          rfl
        · show s.overlapIndicesBuffer ++ [(a : ℚ) - (t.length : ℚ)]
            = (st.2 ++ [((a : ℚ) - (t.length : ℚ), overlapScore data t B a)]).map
              (fun z => z.1)
          rw [List.map_append, h2]
          rfl
        · exact h3
    · by_cases hne : 0 < s.overlapValBuffer.length
      · have hcur : st.2.length ≠ 0 := by
          rw [h1, List.length_map] at hne
          omega
        have hspec : specStep st ((a : ℚ) - (t.length : ℚ), overlapScore data t B a)
            = (st.1 ++ ((st.2.filter
                (fun q => decide (q.2 = listMaxQ (st.2.map (fun z => z.2))))).map
              (fun q => q.1 - 1)), []) := by
          unfold specStep
          rw [if_neg hsc, if_pos hcur]
        rw [hspec, findInflBody_neg_emit data B s a t ht hc hsc hne]
        refine ih (fun i hi => hl i (by simp [hi])) _ _ ht rfl rfl ?_
        show s.keptOverlapIndices
            ++ ((npSelect s.overlapIndicesBuffer
                (npWhereEq s.overlapValBuffer (listMaxQ s.overlapValBuffer))).map
              (fun q => q - 1))
          = k0 ++ (st.1 ++ ((st.2.filter
              (fun q => decide (q.2 = listMaxQ (st.2.map (fun z => z.2))))).map
            (fun q => q.1 - 1)))
        rw [h3, h1, h2, npSelect_npWhereEq, List.map_map, List.append_assoc]
        rfl
      · have hcur : ¬st.2.length ≠ 0 := by
          rw [h1, List.length_map] at hne
          omega
        have hspec : specStep st ((a : ℚ) - (t.length : ℚ), overlapScore data t B a) = st := by
          unfold specStep
          rw [if_neg hsc, if_neg hcur]
        rw [hspec, findInflBody_neg_skip data B s a t ht hc hsc hne]
        exact ih (fun i hi => hl i (by simp [hi])) _ _ ht h1 h2 h3

theorem find_infl_kept_spec (s : TMState) (data : List ℚ) (B : ℚ)
    (t : List ℚ) (ht : s.template = NpVal.vector t)
    (hv : s.overlapValBuffer = []) (hi : s.overlapIndicesBuffer = []) :
    (find_infl_using_template s data B).keptOverlapIndices
      = s.keptOverlapIndices ++ specEmits (tracePairs data t B) := by
  unfold find_infl_using_template
  rw [find_infl_fold_filtered (List.range (data.length - 2)) data B t s ht]
  have hmem : ∀ i ∈ codePositions t.length data.length,
      (t.length : ℤ) < (i : ℤ) ∧ (i : ℤ) < (data.length : ℤ) - (t.length : ℤ) := by
    intro i hi2
    have hmem2 := (List.mem_filter.mp hi2).2
    simpa using hmem2
  have hsim := find_infl_sim data B t (codePositions t.length data.length) hmem s
    ([], []) s.keptOverlapIndices ht (by simpa using hv) (by simpa using hi) (by simp)
  rw [show ((List.range (data.length - 2)).filter
      (fun i : ℕ => decide ((t.length : ℤ) < (i : ℤ))
        && decide ((i : ℤ) < (data.length : ℤ) - (t.length : ℤ))))
    = codePositions t.length data.length from rfl]
  rw [hsim]
  congr 1
  unfold specEmits tracePairs
  rw [List.foldl_map]

/-- **C4 amended.**  Starting in the SEARCHING state (empty buffers), the peak
extractor appends to `keptOverlapIndices` one batch of indices per *completed*
maximal run of positive scores: the buffered positions of *all* occurrences of
the run's maximum score, each minus 1 (exactly one index when the maximum is
unique, several on ties); the buffer is cleared on each non-positive score and
a run still open when the trace ends emits nothing. -/
theorem find_infl_emits_argmax_per_run (s : TMState) (data : List ℚ) (B : ℚ)
    (t : List ℚ) (ht : s.template = NpVal.vector t)
    (hv : s.overlapValBuffer = []) (hi : s.overlapIndicesBuffer = []) :
    (find_infl_using_template s data B).keptOverlapIndices
      = s.keptOverlapIndices ++ specEmits (tracePairs data t B) :=
  find_infl_kept_spec s data B t ht hv hi

/-- Witness for the amended C4: fresh object with template `[0]`, six zero
samples, bias 1. -/
theorem find_infl_emits_argmax_per_run_wit :
    (({ initState with template := NpVal.vector [0] } : TMState).template = NpVal.vector [0]
      ∧ ({ initState with template := NpVal.vector [0] } : TMState).overlapValBuffer = []
      ∧ ({ initState with template := NpVal.vector [0] } : TMState).overlapIndicesBuffer = [])
    ∧ (find_infl_using_template { initState with template := NpVal.vector [0] }
          (List.replicate 6 0) 1).keptOverlapIndices
        = ({ initState with template := NpVal.vector [0] } : TMState).keptOverlapIndices
          ++ specEmits (tracePairs (List.replicate 6 0) [0] 1) :=
  ⟨⟨rfl, rfl, rfl⟩,
    find_infl_emits_argmax_per_run { initState with template := NpVal.vector [0] }
      (List.replicate 6 0) 1 [0] rfl rfl rfl⟩

/-- **C4 counterexample.**  Template `[0,0]`, bias 1, signal
`[9,9,9,0,0,0,9,9]`: the trace has exactly one maximal positive run (scores
`1, 1` at buffered positions `1, 2`) completed by the following score `-8`,
yet the extractor emits *two* indices `[0, 1]` — `np.where` returns every
position of the tied maximum, so "exactly one detected index per completed
run" is false as stated. -/
theorem find_infl_tie_emits_two_cex :
    (find_infl_using_template { initState with template := NpVal.vector [0, 0] }
        ([9, 9, 9, 0, 0, 0, 9, 9] : List ℚ) 1).keptOverlapIndices = [0, 1]
    ∧ (tracePairs ([9, 9, 9, 0, 0, 0, 9, 9] : List ℚ) [0, 0] 1).map
        (fun z => decide (0 < z.2)) = [true, true, false] := by
  have hs3 : overlapScore ([9, 9, 9, 0, 0, 0, 9, 9] : List ℚ) [0, 0] 1 3 = 1 := by
    unfold overlapScore
    rw [show pySlice ([9, 9, 9, 0, 0, 0, 9, 9] : List ℚ) ((3 : ℕ) : ℤ)
        (((3 : ℕ) : ℤ) + (([0, 0] : List ℚ).length : ℤ)) = [0, 0] by decide]
    norm_num [sumAbsDiff]
  have hs4 : overlapScore ([9, 9, 9, 0, 0, 0, 9, 9] : List ℚ) [0, 0] 1 4 = 1 := by
    unfold overlapScore
    rw [show pySlice ([9, 9, 9, 0, 0, 0, 9, 9] : List ℚ) ((4 : ℕ) : ℤ)
        (((4 : ℕ) : ℤ) + (([0, 0] : List ℚ).length : ℤ)) = [0, 0] by decide]
    norm_num [sumAbsDiff]
  have hs5 : overlapScore ([9, 9, 9, 0, 0, 0, 9, 9] : List ℚ) [0, 0] 1 5 = -8 := by
    unfold overlapScore
    rw [show pySlice ([9, 9, 9, 0, 0, 0, 9, 9] : List ℚ) ((5 : ℕ) : ℤ)
        (((5 : ℕ) : ℤ) + (([0, 0] : List ℚ).length : ℤ)) = [0, 9] by decide]
    norm_num [sumAbsDiff]
  have htrace : tracePairs ([9, 9, 9, 0, 0, 0, 9, 9] : List ℚ) [0, 0] 1
      = [(1, 1), (2, 1), (3, -8)] := by
    unfold tracePairs
    rw [show codePositions ([0, 0] : List ℚ).length
        (([9, 9, 9, 0, 0, 0, 9, 9] : List ℚ)).length = [3, 4, 5] by decide]
    rw [List.map_cons, List.map_cons, List.map_cons, List.map_nil, hs3, hs4, hs5]
    norm_num
  constructor
  · rw [find_infl_kept_spec _ _ _ [0, 0] rfl rfl rfl]
    rw [show ({ initState with template := NpVal.vector [0, 0] } : TMState).keptOverlapIndices
        = [] from rfl, List.nil_append, htrace]
    unfold specEmits
    rw [List.foldl_cons, List.foldl_cons, List.foldl_cons, List.foldl_nil]
    rw [show specStep ([], []) ((1 : ℚ), (1 : ℚ)) = ([], [(1, 1)]) by
      unfold specStep
      norm_num]
    rw [show specStep ([], [((1 : ℚ), (1 : ℚ))]) ((2 : ℚ), (1 : ℚ))
        = ([], [(1, 1), (2, 1)]) by
      unfold specStep
      norm_num]
    rw [show specStep ([], [((1 : ℚ), (1 : ℚ)), ((2 : ℚ), (1 : ℚ))]) ((3 : ℚ), (-8 : ℚ))
        = ([0, 1], []) by
      unfold specStep
      rw [if_neg (by norm_num), if_pos (by norm_num)]
      rw [show listMaxQ (([((1 : ℚ), (1 : ℚ)), ((2 : ℚ), (1 : ℚ))]).map (fun z => z.2))
          = 1 by
        show listMaxQ [1, 1] = 1
        rw [listMaxQ_cons]
        norm_num]
      rw [List.filter_cons, List.filter_cons, List.filter_nil,
        if_pos (by norm_num), if_pos (by norm_num)]
      norm_num]
  · rw [htrace]
    rw [List.map_cons, List.map_cons, List.map_cons, List.map_nil]
    rw [show decide ((0 : ℚ) < ((1 : ℚ), (1 : ℚ)).2) = true from decide_eq_true (by norm_num),
      show decide ((0 : ℚ) < ((3 : ℚ), (-8 : ℚ)).2) = false from decide_eq_false (by norm_num)]

/-! ### C1: object state across dataset passes -/

theorem extractStep_kept (data : List ℚ) (s : TMState) (idx : ℕ) :
    (extractStep data s idx).keptOverlapIndices = s.keptOverlapIndices := by
  unfold extractStep
  by_cases h : s.templateArr.len = 0
  · rw [if_pos h]
  · rw [if_neg h]
    cases hv : vstackRow s.templateArr (pySlice data
        ((idx : ℤ) - (s.lowerInflPointRange : ℤ)) ((idx : ℤ) + (s.upperInflPointRange : ℤ))) with
    | ok arr => simp only [hv]
    | error e => simp only [hv]

theorem extract_template_kept (s : TMState) (li : List ℕ) (d : List ℚ) :
    (extract_template s li d).keptOverlapIndices = s.keptOverlapIndices := by
  have hfold : ∀ (l : List ℕ) (s0 : TMState),
      (l.foldl (extractStep d) s0).keptOverlapIndices = s0.keptOverlapIndices := by
    intro l
    induction l with
    | nil => intro s0; rfl
    | cons a rest ih =>
      intro s0
      rw [List.foldl_cons, ih, extractStep_kept]
  exact hfold li s

theorem findInflBody_kept_extends (data : List ℚ) (B : ℚ) (s : TMState) (i : ℕ) :
    ∃ u, ((findInflBody data B s i).1).keptOverlapIndices = s.keptOverlapIndices ++ u := by
  cases hts : s.template with
  | nan =>
    refine ⟨[], ?_⟩
    rw [findInflBody_not_vector_nan data B s i hts, List.append_nil]
  | scalar q =>
    refine ⟨[], ?_⟩
    rw [findInflBody_not_vector_scalar data B s i q hts, List.append_nil]
  | vector t =>
    by_cases hc : (t.length : ℤ) < (i : ℤ) ∧ (i : ℤ) < (data.length : ℤ) - (t.length : ℤ)
    · by_cases hsc : 0 < overlapScore data t B i
      · cases ha : s.overlapIndices with
        | none =>
          refine ⟨[], ?_⟩
          rw [findInflBody_pos_none data B s i t hts hc hsc ha, List.append_nil]
        | some l =>
          refine ⟨[], ?_⟩
          rw [findInflBody_pos_some data B s i t l hts hc hsc ha, List.append_nil]
      · by_cases hne : 0 < s.overlapValBuffer.length
        · refine ⟨(npSelect s.overlapIndicesBuffer
              (npWhereEq s.overlapValBuffer (listMaxQ s.overlapValBuffer))).map
            (fun q => q - 1), ?_⟩
          rw [findInflBody_neg_emit data B s i t hts hc hsc hne]
        · refine ⟨[], ?_⟩
          rw [findInflBody_neg_skip data B s i t hts hc hsc hne, List.append_nil]
    · refine ⟨[], ?_⟩
      rw [findInflBody_cond_false data B s i t hts hc, List.append_nil]

theorem find_infl_kept_extends (s : TMState) (data : List ℚ) (B : ℚ) :
    ∃ u, (find_infl_using_template s data B).keptOverlapIndices
      = s.keptOverlapIndices ++ u := by
  unfold find_infl_using_template
  generalize List.range (data.length - 2) = l
  induction l generalizing s with
  | nil => exact ⟨[], (List.append_nil _).symm⟩
  | cons a rest ih =>
    obtain ⟨u1, hu1⟩ := findInflBody_kept_extends data B s a
    obtain ⟨u2, hu2⟩ := ih ((findInflBody data B s a).1)
    refine ⟨u1 ++ u2, ?_⟩
    rw [List.foldl_cons, hu2, hu1, List.append_assoc]

theorem find?_map_eq (d : List (ℕ × List ℤ)) (k : ℕ) (v : List ℤ)
    (h : d.any (fun p => p.1 == k) = true) :
    (d.map (fun p => if p.1 == k then (k, v) else p)).find? (fun p => p.1 == k)
      = some (k, v) := by
  induction d with
  | nil => simp at h
  | cons a t ih =>
    rw [List.map_cons]
    by_cases hk : (a.1 == k) = true
    · rw [if_pos hk, List.find?_cons_of_pos _ (by simp)]
    · rw [if_neg hk, List.find?_cons_of_neg _ (by simpa using hk)]
      apply ih
      rw [List.any_cons] at h
      simpa [hk] using h

theorem find?_append_new (d : List (ℕ × List ℤ)) (k : ℕ) (v : List ℤ)
    (h : d.any (fun p => p.1 == k) = false) :
    ((d ++ [(k, v)]).find? (fun p => p.1 == k)) = some (k, v) := by
  induction d with
  | nil =>
    rw [List.nil_append, List.find?_cons_of_pos _ (by simp)]
  | cons a t ih =>
    rw [List.any_cons] at h
    have ha : (a.1 == k) = false := by
      cases hb : (a.1 == k) with
      | false => rfl
      | true => rw [hb] at h; simp at h
    rw [List.cons_append, List.find?_cons_of_neg _ (by simp [ha])]
    apply ih
    rw [ha] at h
    simpa using h

theorem lookupD_dictSet (d : List (ℕ × List ℤ)) (k : ℕ) (v : List ℤ) :
    lookupD (dictSet d k v) k = some v := by
  unfold dictSet lookupD
  by_cases h : d.any (fun p => p.1 == k) = true
  · rw [if_pos h, find?_map_eq d k v h]
    rfl
  · rw [if_neg h, find?_append_new d k v (by
      cases hb : d.any (fun p => p.1 == k) with
      | false => rfl
      | true => exact absurd hb h)]
    rfl

/-- **C1 (the code violates the claim).**  One orchestrator pass over a
dataset never clears `keptOverlapIndices`: whenever the pass succeeds, the
final state's kept indices are the *incoming* kept indices (from earlier
datasets) extended with the new detections, and — worse — the
`InflectionIndexSet` stored under the dataset's key is the offset-adjusted
image of that *whole accumulated* list, so every detection from earlier
datasets re-appears in this dataset's output.  (The template rows accumulated
in `templateArr` persist likewise: nothing in `find_template_extract_inds`
resets any accumulator field between passes.) -/
theorem keptIndices_persist_across_datasets (interp : List ℚ → List ℚ → ℚ → ℚ)
    (u : ℕ) (B : ℚ) (s : TMState) (key : ℕ) (press : List ℚ) (ind : List ℕ) :
    (∃ e, processDataset interp u B s key press ind = .error e)
    ∨ ∃ (s' : TMState) (t2 : List ℚ) (lenT : ℕ),
        processDataset interp u B s key press ind = .ok s'
        ∧ s'.keptOverlapIndices = s.keptOverlapIndices ++ t2
        ∧ lookupD s'.inflPointDict key
            = some ((s.keptOverlapIndices ++ t2).map
                (fun q => pyRound q + (lenT : ℤ) + ((lenT / 2 : ℕ) : ℤ))) := by
  simp only [processDataset]
  cases hsg : savitzky_golay
      (upsample_with_inflections interp (arangeQ press.length) press ind u).2.1 93 3 0 1 with
  | error e =>
    left
    exact ⟨e, by simp only [hsg]⟩
  | ok pd =>
    obtain ⟨u2, hu2⟩ := find_infl_kept_extends
      (extract_template s (upsample_with_inflections interp (arangeQ press.length) press ind u).2.2 pd)
      pd B
    have hk : (find_infl_using_template
        (extract_template s (upsample_with_inflections interp (arangeQ press.length) press ind u).2.2 pd)
        pd B).keptOverlapIndices = s.keptOverlapIndices ++ u2 := by
      rw [hu2, extract_template_kept]
    cases ht2 : (find_infl_using_template
        (extract_template s (upsample_with_inflections interp (arangeQ press.length) press ind u).2.2 pd)
        pd B).template with
    | nan =>
      left
      exact ⟨typeLenErr, by simp only [hsg, ht2]⟩
    | scalar q =>
      left
      exact ⟨typeLenErr, by simp only [hsg, ht2]⟩
    | vector t =>
      right
      refine ⟨{ find_infl_using_template
          (extract_template s (upsample_with_inflections interp (arangeQ press.length) press ind u).2.2 pd)
          pd B with
        inflPointDict := dictSet (find_infl_using_template
          (extract_template s (upsample_with_inflections interp (arangeQ press.length) press ind u).2.2 pd)
          pd B).inflPointDict key
          ((find_infl_using_template
            (extract_template s (upsample_with_inflections interp (arangeQ press.length) press ind u).2.2 pd)
            pd B).keptOverlapIndices.map
            (fun q => pyRound q + (t.length : ℤ) + ((t.length / 2 : ℕ) : ℤ))) },
        u2, t.length, ?_, ?_, ?_⟩
      · simp only [hsg, ht2]
      · exact hk
      · rw [show ({ find_infl_using_template
            (extract_template s (upsample_with_inflections interp (arangeQ press.length) press ind u).2.2 pd)
            pd B with
          inflPointDict := dictSet (find_infl_using_template
            (extract_template s (upsample_with_inflections interp (arangeQ press.length) press ind u).2.2 pd)
            pd B).inflPointDict key
            ((find_infl_using_template
              (extract_template s (upsample_with_inflections interp (arangeQ press.length) press ind u).2.2 pd)
              pd B).keptOverlapIndices.map
              (fun q => pyRound q + (t.length : ℤ) + ((t.length / 2 : ℕ) : ℤ))) } : TMState).inflPointDict
          = dictSet (find_infl_using_template
              (extract_template s (upsample_with_inflections interp (arangeQ press.length) press ind u).2.2 pd)
              pd B).inflPointDict key
              ((find_infl_using_template
                (extract_template s (upsample_with_inflections interp (arangeQ press.length) press ind u).2.2 pd)
                pd B).keptOverlapIndices.map
                (fun q => pyRound q + (t.length : ℤ) + ((t.length / 2 : ℕ) : ℤ))) from rfl]
        rw [lookupD_dictSet, hk]
